import Mathlib

/-!
Shallow embedding of `src/models/sngan.py` (SNGAN generator / discriminator
with projection-style conditioning).

Tensors are modelled with explicit natural-number shapes and a total data
function over ℝ; entries outside the shape are irrelevant junk.  Layer
forward passes that the tensor library would reject with a shape error are
modelled as `Option`-returning functions (`none` = runtime error).
Batch normalization is modelled in training mode (batch statistics), as the
spec describes; the library guard that every channel see more than one value
is not modelled.  Broadcasting of mismatched batch dimensions is not
modelled: elementwise operations require equal shapes, which is the regime
of every call site in the file.
-/

namespace Sngan

/-- Rank-4 tensor (batch, channels, height, width). -/
structure Tensor4 where
  n : ℕ
  c : ℕ
  h : ℕ
  w : ℕ
  data : ℕ → ℕ → ℕ → ℕ → ℝ

/-- Rank-2 tensor (batch, features). -/
structure Tensor2 where
  n : ℕ
  d : ℕ
  data : ℕ → ℕ → ℝ

/-- nn.ReLU applied elementwise. -/
noncomputable def reluT (x : Tensor4) : Tensor4 :=
  { x with data := fun n c i j => max 0 (x.data n c i j) }

/-- nn.Tanh applied elementwise. -/
noncomputable def tanhT (x : Tensor4) : Tensor4 :=
  { x with data := fun n c i j => Real.tanh (x.data n c i j) }

/-- nn.Upsample(scale_factor=2), nearest-neighbour. -/
def upsample2 (x : Tensor4) : Tensor4 :=
  ⟨x.n, x.c, 2 * x.h, 2 * x.w, fun n c i j => x.data n c (i / 2) (j / 2)⟩

/-- Zero-padded read of a feature map at integer coordinates. -/
noncomputable def padGet (x : Tensor4) (n c : ℕ) (i j : ℤ) : ℝ :=
  if 0 ≤ i ∧ i < (x.h : ℤ) ∧ 0 ≤ j ∧ j < (x.w : ℤ) then
    x.data n c i.toNat j.toNat
  else 0

/-- nn.Conv2d with square kernel `k`, stride 1, padding `pad` (the only
convolution shapes appearing in the file). -/
structure Conv2d where
  inC : ℕ
  outC : ℕ
  k : ℕ
  pad : ℕ
  weight : ℕ → ℕ → ℕ → ℕ → ℝ
  bias : ℕ → ℝ
  useBias : Bool

/-- Output tensor of a (successful) convolution. -/
noncomputable def Conv2d.out (m : Conv2d) (x : Tensor4) : Tensor4 :=
  ⟨x.n, m.outC, x.h + 2 * m.pad + 1 - m.k, x.w + 2 * m.pad + 1 - m.k,
    fun n o i j =>
      (∑ ic ∈ Finset.range m.inC, ∑ a ∈ Finset.range m.k, ∑ b ∈ Finset.range m.k,
        m.weight o ic a b *
          padGet x n ic ((i : ℤ) + (a : ℤ) - (m.pad : ℤ)) ((j : ℤ) + (b : ℤ) - (m.pad : ℤ)))
      + (if m.useBias then m.bias o else 0)⟩

/-- Convolution forward pass: fails on a channel mismatch or when the padded
input is smaller than the kernel. -/
noncomputable def Conv2d.forward (m : Conv2d) (x : Tensor4) : Option Tensor4 :=
  if x.c = m.inC ∧ m.k ≤ x.h + 2 * m.pad ∧ m.k ≤ x.w + 2 * m.pad then
    some (m.out x)
  else none

/-- BatchNorm eps (the torch default 1e-5). -/
noncomputable def bnEps : ℝ := 1 / 100000

/-- Per-channel batch mean over batch and spatial dimensions. -/
noncomputable def batchMean (x : Tensor4) (c : ℕ) : ℝ :=
  (∑ n ∈ Finset.range x.n, ∑ i ∈ Finset.range x.h, ∑ j ∈ Finset.range x.w,
    x.data n c i j) / (x.n * x.h * x.w)

/-- Per-channel (biased) batch variance. -/
noncomputable def batchVar (x : Tensor4) (c : ℕ) : ℝ :=
  (∑ n ∈ Finset.range x.n, ∑ i ∈ Finset.range x.h, ∑ j ∈ Finset.range x.w,
    (x.data n c i j - batchMean x c) ^ 2) / (x.n * x.h * x.w)

/-- Value of an entry after training-mode batch normalization (no affine). -/
noncomputable def normalize (x : Tensor4) (n c i j : ℕ) : ℝ :=
  (x.data n c i j - batchMean x c) / Real.sqrt (batchVar x c + bnEps)

/-- nn.BatchNorm2d: learned affine parameters are applied only when
`affine = true` (`ConditionalBatchNorm2d` constructs it with `affine=False`). -/
structure BatchNorm2d where
  num_features : ℕ
  affine : Bool
  gamma : ℕ → ℝ
  beta : ℕ → ℝ

/-- Output tensor of a (successful) batch normalization. -/
noncomputable def BatchNorm2d.out (m : BatchNorm2d) (x : Tensor4) : Tensor4 :=
  { x with data := fun n c i j =>
      if m.affine then m.gamma c * normalize x n c i j + m.beta c
      else normalize x n c i j }

/-- BatchNorm forward pass: fails when the channel count disagrees with the
layer's feature count. -/
noncomputable def BatchNorm2d.forward (m : BatchNorm2d) (x : Tensor4) : Option Tensor4 :=
  if x.c = m.num_features then some (m.out x) else none

/-- nn.Linear. -/
structure Linear where
  inF : ℕ
  outF : ℕ
  weight : ℕ → ℕ → ℝ
  bias : ℕ → ℝ
  useBias : Bool

/-- Output tensor of a (successful) linear layer. -/
noncomputable def Linear.out (m : Linear) (x : Tensor2) : Tensor2 :=
  ⟨x.n, m.outF, fun n o =>
    (∑ i ∈ Finset.range m.inF, m.weight o i * x.data n i)
    + (if m.useBias then m.bias o else 0)⟩

/-- Linear forward pass: fails when the feature dimension disagrees. -/
noncomputable def Linear.forward (m : Linear) (x : Tensor2) : Option Tensor2 :=
  if x.d = m.inF then some (m.out x) else none

/-- Output tensor of a (successful) nn.AvgPool2d(2, stride=s). -/
noncomputable def avgPool2Out (s : ℕ) (x : Tensor4) : Tensor4 :=
  ⟨x.n, x.c, (x.h - 2) / s + 1, (x.w - 2) / s + 1,
    fun n c i j =>
      (x.data n c (s * i) (s * j) + x.data n c (s * i) (s * j + 1)
        + x.data n c (s * i + 1) (s * j) + x.data n c (s * i + 1) (s * j + 1)) / 4⟩

/-- nn.AvgPool2d(2, stride=s): fails when the input is smaller than the
2x2 window. -/
noncomputable def avgPool2 (s : ℕ) (x : Tensor4) : Option Tensor4 :=
  if 2 ≤ x.h ∧ 2 ≤ x.w ∧ 1 ≤ s then some (avgPool2Out s x) else none

/-- Elementwise sum of two rank-4 tensors of identical shape. -/
noncomputable def addT4 (a b : Tensor4) : Option Tensor4 :=
  if a.n = b.n ∧ a.c = b.c ∧ a.h = b.h ∧ a.w = b.w then
    some { a with data := fun n c i j => a.data n c i j + b.data n c i j }
  else none

/-- Elementwise sum of two rank-2 tensors of identical shape. -/
noncomputable def addT2 (a b : Tensor2) : Option Tensor2 :=
  if a.n = b.n ∧ a.d = b.d then
    some ⟨a.n, a.d, fun n j => a.data n j + b.data n j⟩
  else none

/-- Elementwise product of two rank-2 tensors of identical shape. -/
noncomputable def mulT2 (a b : Tensor2) : Option Tensor2 :=
  if a.n = b.n ∧ a.d = b.d then
    some ⟨a.n, a.d, fun n j => a.data n j * b.data n j⟩
  else none

/-- torch.sum(t, 1, keepdim=True). -/
noncomputable def rowSum (t : Tensor2) : Tensor2 :=
  ⟨t.n, 1, fun n _ => ∑ j ∈ Finset.range t.d, t.data n j⟩

/-- t.view(-1, c, h, w) on a rank-2 tensor: the leading dimension is inferred
from the element count, which must be divisible by c*h*w. -/
def view4 (t : Tensor2) (c h w : ℕ) : Option Tensor4 :=
  if c * h * w ∣ t.n * t.d then
    some ⟨t.n * t.d / (c * h * w), c, h, w,
      fun n c' i j =>
        t.data ((((n * c + c') * h + i) * w + j) / t.d)
          ((((n * c + c') * h + i) * w + j) % t.d)⟩
  else none

/-- t.view(-1, d) on a rank-4 tensor. -/
def view2of4 (t : Tensor4) (d : ℕ) : Option Tensor2 :=
  if d ∣ t.n * t.c * t.h * t.w then
    some ⟨t.n * t.c * t.h * t.w / d, d,
      fun n j =>
        t.data ((n * d + j) / (t.c * t.h * t.w)) ((n * d + j) / (t.h * t.w) % t.c)
          ((n * d + j) / t.w % t.h) ((n * d + j) % t.w)⟩
  else none

/-- t.view(-1, d) on a rank-2 tensor (used for the final .view(-1, 1)). -/
def view2of2 (t : Tensor2) (d : ℕ) : Option Tensor2 :=
  if d ∣ t.n * t.d then
    some ⟨t.n * t.d / d, d, fun n j => t.data ((n * d + j) / t.d) ((n * d + j) % t.d)⟩
  else none

/-- torch.nn.utils.spectral_norm on a convolution: at forward time the layer
uses weight/σ̂, where σ̂ is the library's current power-iteration estimate of
the largest singular value; the estimate is carried as an explicit value. -/
noncomputable def snConv (m : Conv2d) (sigma : ℝ) : Conv2d :=
  { m with weight := fun o i a b => m.weight o i a b / sigma }

/-- torch.nn.utils.spectral_norm on a linear layer. -/
noncomputable def snLinear (m : Linear) (sigma : ℝ) : Linear :=
  { m with weight := fun o i => m.weight o i / sigma }

/-- Shape interface of a convolution (the facts fixed by `__init__`). -/
def Conv2d.hasShape (m : Conv2d) (ic oc k p : ℕ) : Prop :=
  m.inC = ic ∧ m.outC = oc ∧ m.k = k ∧ m.pad = p ∧ m.useBias = true

/-- ConditionalBatchNorm2d: BatchNorm2d(num_features, affine=False) followed
by embedding-derived per-channel gamma/beta from two bias-free linear maps. -/
structure ConditionalBatchNorm2d where
  num_features : ℕ
  bn : BatchNorm2d
  embed_gamma : Linear
  embed_beta : Linear

/-- Constraints imposed by ConditionalBatchNorm2d.__init__(num_features, dim_embed). -/
def ConditionalBatchNorm2d.wf (m : ConditionalBatchNorm2d) (num_features dim_embed : ℕ) : Prop :=
  m.num_features = num_features ∧
  m.bn.num_features = num_features ∧ m.bn.affine = false ∧
  m.embed_gamma.inF = dim_embed ∧ m.embed_gamma.outF = num_features ∧
  m.embed_gamma.useBias = false ∧
  m.embed_beta.inF = dim_embed ∧ m.embed_beta.outF = num_features ∧
  m.embed_beta.useBias = false

/-- Broadcast combination out + out*gamma + beta, with gamma and beta of
shape (n, c, 1, 1) broadcast over the spatial dimensions. -/
noncomputable def condAffine (out g b : Tensor4) : Option Tensor4 :=
  if g.n = out.n ∧ g.c = out.c ∧ g.h = 1 ∧ g.w = 1 ∧
     b.n = out.n ∧ b.c = out.c ∧ b.h = 1 ∧ b.w = 1 then
    some ⟨out.n, out.c, out.h, out.w, fun n c i j =>
      out.data n c i j + out.data n c i j * g.data n c 0 0 + b.data n c 0 0⟩
  else none

/-- ConditionalBatchNorm2d.forward: out = bn(x);
gamma = embed_gamma(y).view(-1, C, 1, 1); beta = embed_beta(y).view(-1, C, 1, 1);
return out + out*gamma + beta. -/
noncomputable def ConditionalBatchNorm2d.forward (m : ConditionalBatchNorm2d)
    (x : Tensor4) (y : Tensor2) : Option Tensor4 :=
  (m.bn.forward x).bind fun out =>
  (m.embed_gamma.forward y).bind fun g2 =>
  (view4 g2 m.num_features 1 1).bind fun g =>
  (m.embed_beta.forward y).bind fun b2 =>
  (view4 b2 m.num_features 1 1).bind fun b =>
  condAffine out g b

/-- ResBlockGenerator: two 3x3 stride-1 pad-1 convolutions shared by both
paths, conditional batch-norms for the conditional path, plain batch-norms
(inside self.model) for the unconditional path, and an upsample + 1x1
convolution bypass shared by both paths. -/
structure ResBlockGenerator where
  in_channels : ℕ
  out_channels : ℕ
  dim_embed : ℕ
  conv1 : Conv2d
  conv2 : Conv2d
  condgn1 : ConditionalBatchNorm2d
  condgn2 : ConditionalBatchNorm2d
  bn1 : BatchNorm2d
  bn2 : BatchNorm2d
  bypass_conv : Conv2d

/-- Constraints imposed by ResBlockGenerator.__init__(in, out, dim_embed). -/
def ResBlockGenerator.wf (rb : ResBlockGenerator) (ci co de : ℕ) : Prop :=
  rb.in_channels = ci ∧ rb.out_channels = co ∧ rb.dim_embed = de ∧
  rb.conv1.hasShape ci co 3 1 ∧ rb.conv2.hasShape co co 3 1 ∧
  rb.condgn1.wf ci de ∧ rb.condgn2.wf co de ∧
  rb.bn1.num_features = ci ∧ rb.bn1.affine = true ∧
  rb.bn2.num_features = co ∧ rb.bn2.affine = true ∧
  rb.bypass_conv.hasShape ci co 1 0

/-- Conditional branch of ResBlockGenerator.forward (h is not None):
condgn1 → relu → upsample → conv1 → condgn2 → relu → conv2, plus
bypass(x) = bypass_conv(upsample(x)). -/
noncomputable def ResBlockGenerator.forwardCond (rb : ResBlockGenerator)
    (x : Tensor4) (hh : Tensor2) : Option Tensor4 :=
  (rb.condgn1.forward x hh).bind fun o1 =>
  (rb.conv1.forward (upsample2 (reluT o1))).bind fun o2 =>
  (rb.condgn2.forward o2 hh).bind fun o3 =>
  (rb.conv2.forward (reluT o3)).bind fun o4 =>
  (rb.bypass_conv.forward (upsample2 x)).bind fun byp =>
  addT4 o4 byp

/-- Unconditional branch of ResBlockGenerator.forward (h is None):
self.model(x) + self.bypass(x) with model =
bn1 → relu → upsample → conv1 → bn2 → relu → conv2. -/
noncomputable def ResBlockGenerator.forwardUncond (rb : ResBlockGenerator)
    (x : Tensor4) : Option Tensor4 :=
  (rb.bn1.forward x).bind fun o1 =>
  (rb.conv1.forward (upsample2 (reluT o1))).bind fun o2 =>
  (rb.bn2.forward o2).bind fun o3 =>
  (rb.conv2.forward (reluT o3)).bind fun o4 =>
  (rb.bypass_conv.forward (upsample2 x)).bind fun byp =>
  addT4 o4 byp

/-- ResBlockGenerator.forward dispatches on whether an embedding is given. -/
noncomputable def ResBlockGenerator.forward (rb : ResBlockGenerator)
    (x : Tensor4) (h : Option Tensor2) : Option Tensor4 :=
  match h with
  | some hh => rb.forwardCond x hh
  | none => rb.forwardUncond x

/-- SnganGenerator: dense projection to a 4x4 grid, four upsampling residual
blocks, then BatchNorm → ReLU → 3x3 conv → Tanh. -/
structure SnganGenerator where
  nz : ℕ
  dim_embed : ℕ
  gen_ch : ℕ
  dense : Linear
  genblock0 : ResBlockGenerator
  genblock1 : ResBlockGenerator
  genblock2 : ResBlockGenerator
  genblock3 : ResBlockGenerator
  final_bn : BatchNorm2d
  final_conv : Conv2d

/-- Constraints imposed by SnganGenerator.__init__(nz, dim_embed, gen_ch). -/
def SnganGenerator.wf (G : SnganGenerator) : Prop :=
  G.dense.inF = G.nz ∧ G.dense.outF = 4 * 4 * G.gen_ch * 16 ∧ G.dense.useBias = true ∧
  G.genblock0.wf (G.gen_ch * 16) (G.gen_ch * 8) G.dim_embed ∧
  G.genblock1.wf (G.gen_ch * 8) (G.gen_ch * 4) G.dim_embed ∧
  G.genblock2.wf (G.gen_ch * 4) (G.gen_ch * 2) G.dim_embed ∧
  G.genblock3.wf (G.gen_ch * 2) G.gen_ch G.dim_embed ∧
  G.final_bn.num_features = G.gen_ch ∧ G.final_bn.affine = true ∧
  G.final_conv.hasShape G.gen_ch 3 3 1

/-- SnganGenerator.forward: dense(z).view(-1, gen_ch*16, 4, 4), the four
residual blocks (each fed the same optional embedding), then the final
BatchNorm → ReLU → conv → Tanh stage. -/
noncomputable def SnganGenerator.forward (G : SnganGenerator)
    (z : Tensor2) (h : Option Tensor2) : Option Tensor4 :=
  (G.dense.forward z).bind fun d0 =>
  (view4 d0 (G.gen_ch * 16) 4 4).bind fun o0 =>
  (G.genblock0.forward o0 h).bind fun o1 =>
  (G.genblock1.forward o1 h).bind fun o2 =>
  (G.genblock2.forward o2 h).bind fun o3 =>
  (G.genblock3.forward o3 h).bind fun o4 =>
  (G.final_bn.forward o4).bind fun o5 =>
  (G.final_conv.forward (reluT o5)).map tanhT

/-- ResBlockDiscriminator: spectral-normalized 3x3 convolutions with leading
activations; a trailing AvgPool2d(2, stride) on both paths when stride ≠ 1. -/
structure ResBlockDiscriminator where
  in_channels : ℕ
  out_channels : ℕ
  stride : ℕ
  conv1 : Conv2d
  conv2 : Conv2d
  bypass_conv : Conv2d
  sigma1 : ℝ
  sigma2 : ℝ
  sigmaB : ℝ

/-- Constraints imposed by ResBlockDiscriminator.__init__(in, out, stride). -/
def ResBlockDiscriminator.wf (rb : ResBlockDiscriminator) (ci co s : ℕ) : Prop :=
  rb.in_channels = ci ∧ rb.out_channels = co ∧ rb.stride = s ∧
  rb.conv1.hasShape ci co 3 1 ∧ rb.conv2.hasShape co co 3 1 ∧
  rb.bypass_conv.hasShape ci co 1 0

/-- Main path of ResBlockDiscriminator: relu → snconv1 → relu → snconv2,
followed by AvgPool2d(2, stride) when stride ≠ 1. -/
noncomputable def ResBlockDiscriminator.forwardMain (rb : ResBlockDiscriminator)
    (x : Tensor4) : Option Tensor4 :=
  if rb.stride = 1 then
    ((snConv rb.conv1 rb.sigma1).forward (reluT x)).bind fun o1 =>
    (snConv rb.conv2 rb.sigma2).forward (reluT o1)
  else
    ((snConv rb.conv1 rb.sigma1).forward (reluT x)).bind fun o1 =>
    ((snConv rb.conv2 rb.sigma2).forward (reluT o1)).bind fun o2 =>
    avgPool2 rb.stride o2

/-- Bypass path of ResBlockDiscriminator: spectral-normalized 1x1 convolution,
followed by AvgPool2d(2, stride) when stride ≠ 1. -/
noncomputable def ResBlockDiscriminator.forwardBypass (rb : ResBlockDiscriminator)
    (x : Tensor4) : Option Tensor4 :=
  if rb.stride = 1 then (snConv rb.bypass_conv rb.sigmaB).forward x
  else ((snConv rb.bypass_conv rb.sigmaB).forward x).bind fun o => avgPool2 rb.stride o

/-- ResBlockDiscriminator.forward = model(x) + bypass(x). -/
noncomputable def ResBlockDiscriminator.forward (rb : ResBlockDiscriminator)
    (x : Tensor4) : Option Tensor4 :=
  (rb.forwardMain x).bind fun m => (rb.forwardBypass x).bind fun bp => addT4 m bp

/-- FirstResBlockDiscriminator: layers built by __init__(in, out, stride).
No activation precedes conv1; both paths pool with AvgPool2d(2). -/
structure FirstResBlockDiscriminator where
  in_channels : ℕ
  out_channels : ℕ
  conv1 : Conv2d
  conv2 : Conv2d
  bypass_conv : Conv2d
  sigma1 : ℝ
  sigma2 : ℝ
  sigmaB : ℝ

/-- FirstResBlockDiscriminator.__init__(in_channels, out_channels, stride):
the stride argument is accepted but never read — both pools are AvgPool2d(2)
and no field depends on it.  The convolution weights and biases (randomly
initialized then xavier-scaled) and the spectral-norm estimates are taken as
explicit arguments. -/
noncomputable def FirstResBlockDiscriminator.make
    (in_channels out_channels stride : ℕ)
    (w1 w2 wb : ℕ → ℕ → ℕ → ℕ → ℝ) (b1 b2 bb : ℕ → ℝ) (s1 s2 sb : ℝ) :
    FirstResBlockDiscriminator :=
  { in_channels := in_channels, out_channels := out_channels,
    conv1 := ⟨in_channels, out_channels, 3, 1, w1, b1, true⟩,
    conv2 := ⟨out_channels, out_channels, 3, 1, w2, b2, true⟩,
    bypass_conv := ⟨in_channels, out_channels, 1, 0, wb, bb, true⟩,
    sigma1 := s1, sigma2 := s2, sigmaB := sb }

/-- Constraints imposed by FirstResBlockDiscriminator.__init__(in, out, _). -/
def FirstResBlockDiscriminator.wf (fb : FirstResBlockDiscriminator) (ci co : ℕ) : Prop :=
  fb.in_channels = ci ∧ fb.out_channels = co ∧
  fb.conv1.hasShape ci co 3 1 ∧ fb.conv2.hasShape co co 3 1 ∧
  fb.bypass_conv.hasShape ci co 1 0

/-- Main path of FirstResBlockDiscriminator: snconv1 (applied to the raw
input, no leading activation) → relu → snconv2 → AvgPool2d(2). -/
noncomputable def FirstResBlockDiscriminator.forwardMain
    (fb : FirstResBlockDiscriminator) (x : Tensor4) : Option Tensor4 :=
  ((snConv fb.conv1 fb.sigma1).forward x).bind fun o1 =>
  ((snConv fb.conv2 fb.sigma2).forward (reluT o1)).bind fun o2 =>
  avgPool2 2 o2

/-- Bypass path of FirstResBlockDiscriminator: AvgPool2d(2) first, then the
spectral-normalized 1x1 convolution. -/
noncomputable def FirstResBlockDiscriminator.forwardBypass
    (fb : FirstResBlockDiscriminator) (x : Tensor4) : Option Tensor4 :=
  (avgPool2 2 x).bind fun p => (snConv fb.bypass_conv fb.sigmaB).forward p

/-- FirstResBlockDiscriminator.forward = model(x) + bypass(x). -/
noncomputable def FirstResBlockDiscriminator.forward
    (fb : FirstResBlockDiscriminator) (x : Tensor4) : Option Tensor4 :=
  (fb.forwardMain x).bind fun m => (fb.forwardBypass x).bind fun bp => addT4 m bp

/-- SnganDiscriminator: the five residual blocks (b1, b2, b3 form discblock1;
b4 is discblock2; b5 plus a trailing ReLU form discblock3), then the two
spectral-normalized linear heads. -/
structure SnganDiscriminator where
  dim_embed : ℕ
  disc_ch : ℕ
  b1 : FirstResBlockDiscriminator
  b2 : ResBlockDiscriminator
  b3 : ResBlockDiscriminator
  b4 : ResBlockDiscriminator
  b5 : ResBlockDiscriminator
  linear1 : Linear
  linear2 : Linear
  sigmaL1 : ℝ
  sigmaL2 : ℝ

/-- Constraints imposed by SnganDiscriminator.__init__(dim_embed, disc_ch). -/
def SnganDiscriminator.wf (D : SnganDiscriminator) : Prop :=
  D.b1.wf 3 D.disc_ch ∧
  D.b2.wf D.disc_ch (D.disc_ch * 2) 2 ∧
  D.b3.wf (D.disc_ch * 2) (D.disc_ch * 4) 2 ∧
  D.b4.wf (D.disc_ch * 4) (D.disc_ch * 8) 2 ∧
  D.b5.wf (D.disc_ch * 8) (D.disc_ch * 16) 1 ∧
  D.linear1.inF = D.disc_ch * 16 * 4 * 4 ∧ D.linear1.outF = 1 ∧
  D.linear1.useBias = true ∧
  D.linear2.inF = D.dim_embed ∧ D.linear2.outF = D.disc_ch * 16 * 4 * 4 ∧
  D.linear2.useBias = false

/-- Convolutional feature stack of the discriminator: discblock1 (b1, b2, b3),
discblock2 (b4), discblock3 (b5 then ReLU). -/
noncomputable def SnganDiscriminator.features (D : SnganDiscriminator)
    (x : Tensor4) : Option Tensor4 :=
  (D.b1.forward x).bind fun o1 =>
  (D.b2.forward o1).bind fun o2 =>
  (D.b3.forward o2).bind fun o3 =>
  (D.b4.forward o3).bind fun o4 =>
  (D.b5.forward o4).map reluT

/-- SnganDiscriminator.forward: feature stack, flatten with
view(-1, disc_ch*16*4*4), projection term sum(flat * linear2(h), dim 1,
keepdim=True), plus linear1(flat), reshaped by view(-1, 1). -/
noncomputable def SnganDiscriminator.forward (D : SnganDiscriminator)
    (x : Tensor4) (h : Tensor2) : Option Tensor2 :=
  (D.features x).bind fun f =>
  (view2of4 f (D.disc_ch * 16 * 4 * 4)).bind fun flat =>
  ((snLinear D.linear2 D.sigmaL2).forward h).bind fun l2 =>
  (mulT2 flat l2).bind fun prod =>
  ((snLinear D.linear1 D.sigmaL1).forward flat).bind fun s1 =>
  (addT2 s1 (rowSum prod)).bind fun s =>
  view2of2 s 1

/-- All-zero rank-4 weight array (used for concrete instances). -/
noncomputable def zeroW4 : ℕ → ℕ → ℕ → ℕ → ℝ := fun _ _ _ _ => 0

/-- All-zero rank-2 weight array. -/
noncomputable def zeroW2 : ℕ → ℕ → ℝ := fun _ _ => 0

/-- All-zero rank-1 weight array. -/
noncomputable def zeroW1 : ℕ → ℝ := fun _ => 0

/-- Concrete convolution with zero weights. -/
noncomputable def wConv (ic oc k p : ℕ) : Conv2d := ⟨ic, oc, k, p, zeroW4, zeroW1, true⟩

/-- Concrete linear layer with zero weights. -/
noncomputable def wLinear (i o : ℕ) (b : Bool) : Linear := ⟨i, o, zeroW2, zeroW1, b⟩

/-- Concrete batch normalization with zero affine parameters. -/
noncomputable def wBN (c : ℕ) (a : Bool) : BatchNorm2d := ⟨c, a, zeroW1, zeroW1⟩

/-- Concrete conditional batch normalization with zero weights. -/
noncomputable def wCBN (c de : ℕ) : ConditionalBatchNorm2d :=
  ⟨c, wBN c false, wLinear de c false, wLinear de c false⟩

/-- Concrete generator residual block with zero weights. -/
noncomputable def wGenBlock (ci co de : ℕ) : ResBlockGenerator :=
  ⟨ci, co, de, wConv ci co 3 1, wConv co co 3 1, wCBN ci de, wCBN co de,
    wBN ci true, wBN co true, wConv ci co 1 0⟩

/-- Concrete generator block differing from wGenBlock 1 1 1 only in its plain
batch-norm layers (affine disabled), sharing the same convolution layers. -/
noncomputable def wGenBlockAlt : ResBlockGenerator :=
  ⟨1, 1, 1, wConv 1 1 3 1, wConv 1 1 3 1, wCBN 1 1, wCBN 1 1,
    wBN 1 false, wBN 1 false, wConv 1 1 1 0⟩

/-- Concrete generator with nz = 1, dim_embed = 1, gen_ch = 1, zero weights. -/
noncomputable def G0 : SnganGenerator :=
  ⟨1, 1, 1, wLinear 1 256 true, wGenBlock 16 8 1, wGenBlock 8 4 1,
    wGenBlock 4 2 1, wGenBlock 2 1 1, wBN 1 true, wConv 1 3 3 1⟩

/-- Concrete discriminator residual block with zero weights and unit spectral
estimates. -/
noncomputable def wDiscBlock (ci co s : ℕ) : ResBlockDiscriminator :=
  ⟨ci, co, s, wConv ci co 3 1, wConv co co 3 1, wConv ci co 1 0, 1, 1, 1⟩

/-- Concrete first discriminator block built through make (stride 2 as in
SnganDiscriminator.__init__). -/
noncomputable def wFirstBlock (ci co : ℕ) : FirstResBlockDiscriminator :=
  FirstResBlockDiscriminator.make ci co 2 zeroW4 zeroW4 zeroW4 zeroW1 zeroW1 zeroW1 1 1 1

/-- Concrete discriminator with dim_embed = 1, disc_ch = 1, zero weights. -/
noncomputable def D0 : SnganDiscriminator :=
  ⟨1, 1, wFirstBlock 3 1, wDiscBlock 1 2 2, wDiscBlock 2 4 2, wDiscBlock 4 8 2,
    wDiscBlock 8 16 1, wLinear 256 1 true, wLinear 1 256 false, 1, 1⟩

/-- Concrete latent batch: one sample of width 1, all zeros. -/
noncomputable def z0 : Tensor2 := ⟨1, 1, zeroW2⟩

/-- Concrete embedding batch: one sample of width 1, all zeros. -/
noncomputable def h0 : Tensor2 := ⟨1, 1, zeroW2⟩

/-- Concrete 3-channel 64x64 image batch of one zero sample. -/
noncomputable def x64 : Tensor4 := ⟨1, 3, 64, 64, zeroW4⟩

/-- Concrete 3-channel 65x65 image batch of one zero sample. -/
noncomputable def x65 : Tensor4 := ⟨1, 3, 65, 65, zeroW4⟩

/-- Concrete 1-channel 2x2 feature map of one zero sample. -/
noncomputable def x22 : Tensor4 := ⟨1, 1, 2, 2, zeroW4⟩

/-- Concrete 16-channel 4x4 feature map of one zero sample. -/
noncomputable def x44 : Tensor4 := ⟨1, 16, 4, 4, zeroW4⟩

/-- Concrete 8-channel 4x4 feature map of one zero sample. -/
noncomputable def x8 : Tensor4 := ⟨1, 8, 4, 4, zeroW4⟩

/-- Extensionality for rank-4 tensors. -/
theorem Tensor4.ext4 {a b : Tensor4} (hn : a.n = b.n) (hc : a.c = b.c)
    (hh : a.h = b.h) (hw : a.w = b.w) (hd : a.data = b.data) : a = b := by
  cases a
  cases b
  subst hn hc hh hw hd
  rfl

/-- Extensionality for rank-2 tensors. -/
theorem Tensor2.ext2 {a b : Tensor2} (hn : a.n = b.n) (hd : a.d = b.d)
    (hdata : a.data = b.data) : a = b := by
  cases a
  cases b
  subst hn hd hdata
  rfl

@[simp] theorem reluT_n (x : Tensor4) : (reluT x).n = x.n := rfl
@[simp] theorem reluT_c (x : Tensor4) : (reluT x).c = x.c := rfl
@[simp] theorem reluT_h (x : Tensor4) : (reluT x).h = x.h := rfl
@[simp] theorem reluT_w (x : Tensor4) : (reluT x).w = x.w := rfl
@[simp] theorem upsample2_n (x : Tensor4) : (upsample2 x).n = x.n := rfl
@[simp] theorem upsample2_c (x : Tensor4) : (upsample2 x).c = x.c := rfl
@[simp] theorem upsample2_h (x : Tensor4) : (upsample2 x).h = 2 * x.h := rfl
@[simp] theorem upsample2_w (x : Tensor4) : (upsample2 x).w = 2 * x.w := rfl
@[simp] theorem snConv_inC (m : Conv2d) (s : ℝ) : (snConv m s).inC = m.inC := rfl
@[simp] theorem snConv_outC (m : Conv2d) (s : ℝ) : (snConv m s).outC = m.outC := rfl
@[simp] theorem snConv_k (m : Conv2d) (s : ℝ) : (snConv m s).k = m.k := rfl
@[simp] theorem snConv_pad (m : Conv2d) (s : ℝ) : (snConv m s).pad = m.pad := rfl
@[simp] theorem snConv_useBias (m : Conv2d) (s : ℝ) : (snConv m s).useBias = m.useBias := rfl
@[simp] theorem snLinear_inF (m : Linear) (s : ℝ) : (snLinear m s).inF = m.inF := rfl
@[simp] theorem snLinear_outF (m : Linear) (s : ℝ) : (snLinear m s).outF = m.outF := rfl
@[simp] theorem rowSum_n (t : Tensor2) : (rowSum t).n = t.n := rfl
@[simp] theorem rowSum_d (t : Tensor2) : (rowSum t).d = 1 := rfl

/-- Spectral normalization keeps the shape interface of a convolution. -/
theorem snConv_hasShape {m : Conv2d} {ic oc k p : ℕ} (s : ℝ)
    (h : m.hasShape ic oc k p) : (snConv m s).hasShape ic oc k p := h

/-- Successful convolution forward. -/
theorem Conv2d.forward_pos (m : Conv2d) (x : Tensor4) (h1 : x.c = m.inC)
    (h2 : m.k ≤ x.h + 2 * m.pad) (h3 : m.k ≤ x.w + 2 * m.pad) :
    m.forward x = some (m.out x) := by
  simp [Conv2d.forward, h1, h2, h3]

/-- Successful 3x3 pad-1 convolution: shape preserved, channels mapped. -/
theorem conv3_ex (m : Conv2d) {ic oc : ℕ} (hm : m.hasShape ic oc 3 1) (x : Tensor4)
    (hc : x.c = ic) (hh : 1 ≤ x.h) (hw : 1 ≤ x.w) :
    ∃ dd, m.forward x = some ⟨x.n, oc, x.h, x.w, dd⟩ := by
  obtain ⟨e1, e2, e3, e4, _⟩ := hm
  refine ⟨(m.out x).data, (m.forward_pos x (by omega) (by omega) (by omega)).trans ?_⟩
  exact congrArg some (Tensor4.ext4 rfl e2 (by simp [Conv2d.out]; omega)
    (by simp [Conv2d.out]; omega) rfl)

/-- Successful 1x1 pad-0 convolution: shape preserved, channels mapped. -/
theorem conv1_ex (m : Conv2d) {ic oc : ℕ} (hm : m.hasShape ic oc 1 0) (x : Tensor4)
    (hc : x.c = ic) (hh : 1 ≤ x.h) (hw : 1 ≤ x.w) :
    ∃ dd, m.forward x = some ⟨x.n, oc, x.h, x.w, dd⟩ := by
  obtain ⟨e1, e2, e3, e4, _⟩ := hm
  refine ⟨(m.out x).data, (m.forward_pos x (by omega) (by omega) (by omega)).trans ?_⟩
  exact congrArg some (Tensor4.ext4 rfl e2 (by simp [Conv2d.out]; omega)
    (by simp [Conv2d.out]; omega) rfl)

/-- Successful batch normalization: shape unchanged. -/
theorem bn_ex (m : BatchNorm2d) (x : Tensor4) (hc : x.c = m.num_features) :
    ∃ dd, m.forward x = some ⟨x.n, x.c, x.h, x.w, dd⟩ := by
  refine ⟨(m.out x).data, ?_⟩
  unfold BatchNorm2d.forward
  rw [if_pos hc]
  exact congrArg some (Tensor4.ext4 rfl rfl rfl rfl rfl)

/-- Successful linear layer: batch kept, features mapped to outF. -/
theorem linear_ex (m : Linear) (x : Tensor2) (hd : x.d = m.inF) :
    ∃ dd, m.forward x = some ⟨x.n, m.outF, dd⟩ := by
  refine ⟨(m.out x).data, ?_⟩
  unfold Linear.forward
  rw [if_pos hd]
  exact congrArg some (Tensor2.ext2 rfl rfl rfl)

/-- Successful AvgPool2d(2, stride=2): spatial dimensions floor-halved. -/
theorem avg2_ex (x : Tensor4) (h2 : 2 ≤ x.h) (w2 : 2 ≤ x.w) :
    ∃ dd, avgPool2 2 x = some ⟨x.n, x.c, x.h / 2, x.w / 2, dd⟩ := by
  refine ⟨(avgPool2Out 2 x).data, ?_⟩
  simp [avgPool2, h2, w2]
  exact Tensor4.ext4 rfl rfl (by simp [avgPool2Out]; omega) (by simp [avgPool2Out]; omega) rfl

/-- Successful elementwise sum of rank-4 tensors. -/
theorem addT4_ex (a b : Tensor4) (hn : a.n = b.n) (hc : a.c = b.c)
    (hh : a.h = b.h) (hw : a.w = b.w) :
    ∃ dd, addT4 a b = some ⟨a.n, a.c, a.h, a.w, dd⟩ := by
  refine ⟨fun n c i j => a.data n c i j + b.data n c i j, ?_⟩
  unfold addT4
  rw [if_pos ⟨hn, hc, hh, hw⟩]

/-- Successful elementwise sum of rank-2 tensors. -/
theorem addT2_ex (a b : Tensor2) (hn : a.n = b.n) (hd : a.d = b.d) :
    ∃ dd, addT2 a b = some ⟨a.n, a.d, dd⟩ := by
  refine ⟨fun n j => a.data n j + b.data n j, ?_⟩
  unfold addT2
  rw [if_pos ⟨hn, hd⟩]

/-- Successful elementwise product of rank-2 tensors. -/
theorem mulT2_ex (a b : Tensor2) (hn : a.n = b.n) (hd : a.d = b.d) :
    ∃ dd, mulT2 a b = some ⟨a.n, a.d, dd⟩ := by
  refine ⟨fun n j => a.data n j * b.data n j, ?_⟩
  unfold mulT2
  rw [if_pos ⟨hn, hd⟩]

/-- Successful view(-1, c, h, w) when the feature dimension is exactly c*h*w:
the batch dimension is preserved. -/
theorem view4_ex (t : Tensor2) (c h w : ℕ) (hd : t.d = c * h * w)
    (hpos : 1 ≤ c * h * w) :
    ∃ dd, view4 t c h w = some ⟨t.n, c, h, w, dd⟩ := by
  have hdvd : c * h * w ∣ t.n * t.d := hd ▸ dvd_mul_left (c * h * w) t.n
  refine ⟨fun n c' i j => t.data ((((n * c + c') * h + i) * w + j) / t.d)
    ((((n * c + c') * h + i) * w + j) % t.d), ?_⟩
  unfold view4
  rw [if_pos hdvd]
  refine congrArg some (Tensor4.ext4 ?_ rfl rfl rfl rfl)
  show t.n * t.d / (c * h * w) = t.n
  rw [hd, Nat.mul_div_assoc t.n dvd_rfl, Nat.div_self hpos, Nat.mul_one]

/-- Successful view(-1, d) on a rank-4 tensor whose per-sample element count
is exactly d: the batch dimension is preserved. -/
theorem view2of4_ex (t : Tensor4) (d : ℕ) (hd : t.c * t.h * t.w = d) (hpos : 1 ≤ d) :
    ∃ dd, view2of4 t d = some ⟨t.n, d, dd⟩ := by
  have hmul : t.n * t.c * t.h * t.w = t.n * d := by rw [← hd]; ring
  have hdvd : d ∣ t.n * t.c * t.h * t.w := hmul ▸ dvd_mul_left d t.n
  refine ⟨fun n j => t.data ((n * d + j) / (t.c * t.h * t.w)) ((n * d + j) / (t.h * t.w) % t.c)
    ((n * d + j) / t.w % t.h) ((n * d + j) % t.w), ?_⟩
  unfold view2of4
  rw [if_pos hdvd]
  refine congrArg some (Tensor2.ext2 ?_ rfl rfl)
  show t.n * t.c * t.h * t.w / d = t.n
  rw [hmul, Nat.mul_div_assoc t.n dvd_rfl, Nat.div_self hpos, Nat.mul_one]

/-- view(-1, 1) on a rank-2 tensor that already has one feature:
the batch dimension is preserved. -/
theorem view2of2_one (t : Tensor2) (hd : t.d = 1) :
    ∃ dd, view2of2 t 1 = some ⟨t.n, 1, dd⟩ := by
  refine ⟨fun n j => t.data ((n * 1 + j) / t.d) ((n * 1 + j) % t.d), ?_⟩
  unfold view2of2
  rw [if_pos (one_dvd _)]
  refine congrArg some (Tensor2.ext2 ?_ rfl rfl)
  rw [Nat.div_one, hd, Nat.mul_one]

/-- Batch normalization with affine disabled returns exactly the
batch-statistics normalization, with no learned scale or shift. -/
theorem bn_eq_noaffine (m : BatchNorm2d) (x : Tensor4)
    (hc : x.c = m.num_features) (haff : m.affine = false) :
    m.forward x = some ⟨x.n, x.c, x.h, x.w, fun n c i j => normalize x n c i j⟩ := by
  unfold BatchNorm2d.forward
  rw [if_pos hc]
  refine congrArg some (Tensor4.ext4 rfl rfl rfl rfl ?_)
  funext n c i j
  simp [BatchNorm2d.out, haff]

/-- A bias-free linear layer returns exactly the weight sums. -/
theorem linear_eq_nobias (m : Linear) (x : Tensor2)
    (hd : x.d = m.inF) (hb : m.useBias = false) :
    m.forward x = some ⟨x.n, m.outF,
      fun n o => ∑ i ∈ Finset.range m.inF, m.weight o i * x.data n i⟩ := by
  unfold Linear.forward
  rw [if_pos hd]
  refine congrArg some (Tensor2.ext2 rfl rfl ?_)
  funext n o
  simp [Linear.out, hb]

/-- Equation form of a successful view(-1, c, h, w). -/
theorem view4_eq (t : Tensor2) (c h w : ℕ) (hd : t.d = c * h * w)
    (hpos : 1 ≤ c * h * w) :
    view4 t c h w = some ⟨t.n, c, h, w,
      fun n c' i j => t.data ((((n * c + c') * h + i) * w + j) / t.d)
        ((((n * c + c') * h + i) * w + j) % t.d)⟩ := by
  have hdvd : c * h * w ∣ t.n * t.d := hd ▸ dvd_mul_left (c * h * w) t.n
  unfold view4
  rw [if_pos hdvd]
  refine congrArg some (Tensor4.ext4 ?_ rfl rfl rfl rfl)
  show t.n * t.d / (c * h * w) = t.n
  rw [hd, Nat.mul_div_assoc t.n dvd_rfl, Nat.div_self hpos, Nat.mul_one]

/-- Equation form of a successful broadcast out + out*gamma + beta. -/
theorem condAffine_eq (out g b : Tensor4) (hgn : g.n = out.n) (hgc : g.c = out.c)
    (hgh : g.h = 1) (hgw : g.w = 1) (hbn : b.n = out.n) (hbc : b.c = out.c)
    (hbh : b.h = 1) (hbw : b.w = 1) :
    condAffine out g b = some ⟨out.n, out.c, out.h, out.w, fun n c i j =>
      out.data n c i j + out.data n c i j * g.data n c 0 0 + b.data n c 0 0⟩ := by
  unfold condAffine
  rw [if_pos ⟨hgn, hgc, hgh, hgw, hbn, hbc, hbh, hbw⟩]

/-- ConditionalBatchNorm2d.forward on well-formed shapes: the output keeps the
input shape, and every in-range entry is exactly
normalized + normalized * gamma + beta where normalized carries no learned
affine and gamma, beta are the bias-free linear projections of the embedding
for the entry's channel. -/
theorem ConditionalBatchNorm2d.forward_ex (m : ConditionalBatchNorm2d) {C de : ℕ}
    (hwf : m.wf C de) (x : Tensor4) (y : Tensor2)
    (hc : x.c = C) (hyn : y.n = x.n) (hyd : y.d = de) (hC : 1 ≤ C) :
    ∃ dd, m.forward x y = some ⟨x.n, x.c, x.h, x.w, dd⟩ ∧
      ∀ n c i j, c < C → dd n c i j =
        normalize x n c i j
          + normalize x n c i j *
              (∑ k ∈ Finset.range de, m.embed_gamma.weight c k * y.data n k)
          + ∑ k ∈ Finset.range de, m.embed_beta.weight c k * y.data n k := by
  obtain ⟨e0, e1, e2, e3, e4, e5, e6, e7, e8⟩ := hwf
  have hbn := bn_eq_noaffine m.bn x (hc.trans e1.symm) e2
  have hg := linear_eq_nobias m.embed_gamma y (hyd.trans e3.symm) e5
  have hb2 := linear_eq_nobias m.embed_beta y (hyd.trans e6.symm) e8
  have hgv := view4_eq ⟨y.n, m.embed_gamma.outF,
    fun n o => ∑ i ∈ Finset.range m.embed_gamma.inF, m.embed_gamma.weight o i * y.data n i⟩
    C 1 1 (by simpa using e4) (by omega)
  have hbv := view4_eq ⟨y.n, m.embed_beta.outF,
    fun n o => ∑ i ∈ Finset.range m.embed_beta.inF, m.embed_beta.weight o i * y.data n i⟩
    C 1 1 (by simpa using e7) (by omega)
  refine ⟨?dd, ?heq, ?hval⟩
  case heq =>
    unfold ConditionalBatchNorm2d.forward
    rw [hbn, Option.some_bind, hg, Option.some_bind, e0, hgv, Option.some_bind,
      hb2, Option.some_bind, hbv, Option.some_bind]
    refine condAffine_eq _ _ _ ?_ ?_ ?_ ?_ ?_ ?_ ?_ ?_ <;>
      first
      | exact hyn
      | exact hc.symm
      | rfl
  case hval =>
    intro n c i j hcc
    have hdiv : (n * C + c) / C = n := by
      rw [Nat.mul_comm, Nat.mul_add_div (by omega)]
      simp [Nat.div_eq_of_lt hcc]
    have hmod : (n * C + c) % C = c := by
      rw [Nat.mul_comm, Nat.mul_add_mod]
      exact Nat.mod_eq_of_lt hcc
    dsimp only
    simp only [Nat.mul_one, Nat.add_zero]
    rw [show m.embed_gamma.outF = C from e4, show m.embed_beta.outF = C from e7,
      hdiv, hmod, e3, e6]

/-- Shape form of a successful 3x3 convolution. -/
theorem conv3_shape (m : Conv2d) {ic oc : ℕ} (hm : m.hasShape ic oc 3 1) (x : Tensor4)
    (hc : x.c = ic) (hh : 1 ≤ x.h) (hw : 1 ≤ x.w) :
    ∃ u, m.forward x = some u ∧ u.n = x.n ∧ u.c = oc ∧ u.h = x.h ∧ u.w = x.w := by
  obtain ⟨dd, he⟩ := conv3_ex m hm x hc hh hw
  exact ⟨_, he, rfl, rfl, rfl, rfl⟩

/-- Shape form of a successful 1x1 convolution. -/
theorem conv1_shape (m : Conv2d) {ic oc : ℕ} (hm : m.hasShape ic oc 1 0) (x : Tensor4)
    (hc : x.c = ic) (hh : 1 ≤ x.h) (hw : 1 ≤ x.w) :
    ∃ u, m.forward x = some u ∧ u.n = x.n ∧ u.c = oc ∧ u.h = x.h ∧ u.w = x.w := by
  obtain ⟨dd, he⟩ := conv1_ex m hm x hc hh hw
  exact ⟨_, he, rfl, rfl, rfl, rfl⟩

/-- Shape form of a successful batch normalization. -/
theorem bn_shape (m : BatchNorm2d) (x : Tensor4) (hc : x.c = m.num_features) :
    ∃ u, m.forward x = some u ∧ u.n = x.n ∧ u.c = x.c ∧ u.h = x.h ∧ u.w = x.w := by
  obtain ⟨dd, he⟩ := bn_ex m x hc
  exact ⟨_, he, rfl, rfl, rfl, rfl⟩

/-- Shape form of a successful linear layer. -/
theorem linear_shape (m : Linear) (x : Tensor2) (hd : x.d = m.inF) :
    ∃ u, m.forward x = some u ∧ u.n = x.n ∧ u.d = m.outF := by
  obtain ⟨dd, he⟩ := linear_ex m x hd
  exact ⟨_, he, rfl, rfl⟩

/-- Shape form of a successful AvgPool2d(2, stride=2). -/
theorem avg2_shape (x : Tensor4) (h2 : 2 ≤ x.h) (w2 : 2 ≤ x.w) :
    ∃ u, avgPool2 2 x = some u ∧ u.n = x.n ∧ u.c = x.c ∧ u.h = x.h / 2 ∧ u.w = x.w / 2 := by
  obtain ⟨dd, he⟩ := avg2_ex x h2 w2
  exact ⟨_, he, rfl, rfl, rfl, rfl⟩

/-- Shape form of a successful rank-4 elementwise sum. -/
theorem addT4_shape (a b : Tensor4) (hn : a.n = b.n) (hc : a.c = b.c)
    (hh : a.h = b.h) (hw : a.w = b.w) :
    ∃ u, addT4 a b = some u ∧ u.n = a.n ∧ u.c = a.c ∧ u.h = a.h ∧ u.w = a.w := by
  obtain ⟨dd, he⟩ := addT4_ex a b hn hc hh hw
  exact ⟨_, he, rfl, rfl, rfl, rfl⟩

/-- Shape form of a successful rank-2 elementwise sum. -/
theorem addT2_shape (a b : Tensor2) (hn : a.n = b.n) (hd : a.d = b.d) :
    ∃ u, addT2 a b = some u ∧ u.n = a.n ∧ u.d = a.d := by
  obtain ⟨dd, he⟩ := addT2_ex a b hn hd
  exact ⟨_, he, rfl, rfl⟩

/-- Shape form of a successful rank-2 elementwise product. -/
theorem mulT2_shape (a b : Tensor2) (hn : a.n = b.n) (hd : a.d = b.d) :
    ∃ u, mulT2 a b = some u ∧ u.n = a.n ∧ u.d = a.d := by
  obtain ⟨dd, he⟩ := mulT2_ex a b hn hd
  exact ⟨_, he, rfl, rfl⟩

/-- Shape form of a successful view(-1, c, h, w). -/
theorem view4_shape (t : Tensor2) (c h w : ℕ) (hd : t.d = c * h * w)
    (hpos : 1 ≤ c * h * w) :
    ∃ u, view4 t c h w = some u ∧ u.n = t.n ∧ u.c = c ∧ u.h = h ∧ u.w = w := by
  obtain ⟨dd, he⟩ := view4_ex t c h w hd hpos
  exact ⟨_, he, rfl, rfl, rfl, rfl⟩

/-- Shape form of a successful view(-1, d) on a rank-4 tensor. -/
theorem view2of4_shape (t : Tensor4) (d : ℕ) (hd : t.c * t.h * t.w = d) (hpos : 1 ≤ d) :
    ∃ u, view2of4 t d = some u ∧ u.n = t.n ∧ u.d = d := by
  obtain ⟨dd, he⟩ := view2of4_ex t d hd hpos
  exact ⟨_, he, rfl, rfl⟩

/-- Shape form of view(-1, 1) on a single-feature rank-2 tensor. -/
theorem view2of2_shape (t : Tensor2) (hd : t.d = 1) :
    ∃ u, view2of2 t 1 = some u ∧ u.n = t.n ∧ u.d = 1 := by
  obtain ⟨dd, he⟩ := view2of2_one t hd
  exact ⟨_, he, rfl, rfl⟩

/-- Shape form of a successful ConditionalBatchNorm2d forward. -/
theorem cbn_shape (m : ConditionalBatchNorm2d) {C de : ℕ}
    (hwf : m.wf C de) (x : Tensor4) (y : Tensor2)
    (hc : x.c = C) (hyn : y.n = x.n) (hyd : y.d = de) (hC : 1 ≤ C) :
    ∃ u, m.forward x y = some u ∧ u.n = x.n ∧ u.c = x.c ∧ u.h = x.h ∧ u.w = x.w := by
  obtain ⟨dd, he, _⟩ := m.forward_ex hwf x y hc hyn hyd hC
  exact ⟨_, he, rfl, rfl, rfl, rfl⟩

/-- Conditional generator residual block: on a well-formed block the forward
pass succeeds and maps (n, ci, h, w) to (n, co, 2h, 2w). -/
theorem ResBlockGenerator.forwardCond_shape (rb : ResBlockGenerator) {ci co de : ℕ}
    (hwf : rb.wf ci co de) (x : Tensor4) (hh : Tensor2)
    (hc : x.c = ci) (hx1 : 1 ≤ x.h) (hw1 : 1 ≤ x.w)
    (hhn : hh.n = x.n) (hhd : hh.d = de) (hci : 1 ≤ ci) (hco : 1 ≤ co) :
    ∃ u, rb.forwardCond x hh = some u ∧
      u.n = x.n ∧ u.c = co ∧ u.h = 2 * x.h ∧ u.w = 2 * x.w := by
  obtain ⟨e1, e2, e3, hcv1, hcv2, hg1, hg2, hb1, hb1a, hb2, hb2a, hbp⟩ := hwf
  obtain ⟨o1, h1, hn1, hc1, hh1, hw1a⟩ := cbn_shape rb.condgn1 hg1 x hh hc hhn hhd hci
  obtain ⟨o2, h2, hn2, hc2, hh2, hw2⟩ := conv3_shape rb.conv1 hcv1 (upsample2 (reluT o1))
    (by simpa [hc1] using hc) (by simp [hh1]; omega) (by simp [hw1a]; omega)
  obtain ⟨o3, h3, hn3, hc3, hh3, hw3⟩ := cbn_shape rb.condgn2 hg2 o2 hh hc2
    (by rw [hn2]; simpa [hn1] using hhn) hhd hco
  obtain ⟨o4, h4, hn4, hc4, hh4, hw4⟩ := conv3_shape rb.conv2 hcv2 (reluT o3)
    (by simpa [hc3] using hc2) (by simp [hh3, hh2, hh1]; omega)
    (by simp [hw3, hw2, hw1a]; omega)
  obtain ⟨ob, hb, hnb, hcb, hhb, hwb⟩ := conv1_shape rb.bypass_conv hbp (upsample2 x)
    (by simpa using hc) (by simp; omega) (by simp; omega)
  obtain ⟨u, hu, hun, huc, huh, huw⟩ := addT4_shape o4 ob
    (by simp [hn4, hn3, hn2, hn1, hnb])
    (by simp [hc4, hcb])
    (by simp [hh4, hh3, hh2, hh1, hhb])
    (by simp [hw4, hw3, hw2, hw1a, hwb])
  refine ⟨u, ?_, ?_, ?_, ?_, ?_⟩
  · unfold ResBlockGenerator.forwardCond
    rw [h1, Option.some_bind, h2, Option.some_bind, h3, Option.some_bind,
      h4, Option.some_bind, hb, Option.some_bind, hu]
  · simp [hun, hn4, hn3, hn2, hn1]
  · simp [huc, hc4]
  · simp [huh, hh4, hh3, hh2, hh1]
  · simp [huw, hw4, hw3, hw2, hw1a]

/-- Unconditional generator residual block: on a well-formed block the forward
pass succeeds and maps (n, ci, h, w) to (n, co, 2h, 2w). -/
theorem ResBlockGenerator.forwardUncond_shape (rb : ResBlockGenerator) {ci co de : ℕ}
    (hwf : rb.wf ci co de) (x : Tensor4)
    (hc : x.c = ci) (hx1 : 1 ≤ x.h) (hw1 : 1 ≤ x.w) :
    ∃ u, rb.forwardUncond x = some u ∧
      u.n = x.n ∧ u.c = co ∧ u.h = 2 * x.h ∧ u.w = 2 * x.w := by
  obtain ⟨e1, e2, e3, hcv1, hcv2, hg1, hg2, hb1, hb1a, hb2, hb2a, hbp⟩ := hwf
  obtain ⟨o1, h1, hn1, hc1, hh1, hw1a⟩ := bn_shape rb.bn1 x (by rw [hc, hb1])
  obtain ⟨o2, h2, hn2, hc2, hh2, hw2⟩ := conv3_shape rb.conv1 hcv1 (upsample2 (reluT o1))
    (by simpa [hc1] using hc) (by simp [hh1]; omega) (by simp [hw1a]; omega)
  obtain ⟨o3, h3, hn3, hc3, hh3, hw3⟩ := bn_shape rb.bn2 o2 (by rw [hc2, hb2])
  obtain ⟨o4, h4, hn4, hc4, hh4, hw4⟩ := conv3_shape rb.conv2 hcv2 (reluT o3)
    (by simp [hc3, hc2]) (by simp [hh3, hh2, hh1]; omega)
    (by simp [hw3, hw2, hw1a]; omega)
  obtain ⟨ob, hb, hnb, hcb, hhb, hwb⟩ := conv1_shape rb.bypass_conv hbp (upsample2 x)
    (by simpa using hc) (by simp; omega) (by simp; omega)
  obtain ⟨u, hu, hun, huc, huh, huw⟩ := addT4_shape o4 ob
    (by simp [hn4, hn3, hn2, hn1, hnb])
    (by simp [hc4, hcb])
    (by simp [hh4, hh3, hh2, hh1, hhb])
    (by simp [hw4, hw3, hw2, hw1a, hwb])
  refine ⟨u, ?_, ?_, ?_, ?_, ?_⟩
  · unfold ResBlockGenerator.forwardUncond
    rw [h1, Option.some_bind, h2, Option.some_bind, h3, Option.some_bind,
      h4, Option.some_bind, hb, Option.some_bind, hu]
  · simp [hun, hn4, hn3, hn2, hn1]
  · simp [huc, hc4]
  · simp [huh, hh4, hh3, hh2, hh1]
  · simp [huw, hw4, hw3, hw2, hw1a]

/-- Discriminator residual block with stride 2: the forward pass succeeds and
floor-halves both spatial dimensions. -/
theorem ResBlockDiscriminator.forward_shape2 (rb : ResBlockDiscriminator) {ci co : ℕ}
    (hwf : rb.wf ci co 2) (x : Tensor4)
    (hc : x.c = ci) (h2 : 2 ≤ x.h) (w2 : 2 ≤ x.w) :
    ∃ u, rb.forward x = some u ∧
      u.n = x.n ∧ u.c = co ∧ u.h = x.h / 2 ∧ u.w = x.w / 2 := by
  obtain ⟨e1, e2, e3, hcv1, hcv2, hbp⟩ := hwf
  obtain ⟨o1, h1, hn1, hc1, hh1, hw1⟩ := conv3_shape (snConv rb.conv1 rb.sigma1)
    (snConv_hasShape _ hcv1) (reluT x) (by simpa using hc) (by simp; omega) (by simp; omega)
  obtain ⟨o2, h2x, hn2, hc2, hh2, hw2x⟩ := conv3_shape (snConv rb.conv2 rb.sigma2)
    (snConv_hasShape _ hcv2) (reluT o1) (by simpa using hc1)
    (by simp [hh1]; omega) (by simp [hw1]; omega)
  obtain ⟨o3, h3, hn3, hc3, hh3, hw3⟩ := avg2_shape o2
    (by simp [hh2, hh1] at *; omega) (by simp [hw2x, hw1] at *; omega)
  have hmEq : rb.forwardMain x = some o3 := by
    unfold ResBlockDiscriminator.forwardMain
    rw [e3, if_neg (by omega : ¬ (2 : ℕ) = 1), h1, Option.some_bind, h2x,
      Option.some_bind, h3]
  obtain ⟨ob1, hb1, hnb1, hcb1, hhb1, hwb1⟩ := conv1_shape (snConv rb.bypass_conv rb.sigmaB)
    (snConv_hasShape _ hbp) x hc (by omega) (by omega)
  obtain ⟨ob2, hb2, hnb2, hcb2, hhb2, hwb2⟩ := avg2_shape ob1
    (by simp [hhb1]; omega) (by simp [hwb1]; omega)
  have hbEq : rb.forwardBypass x = some ob2 := by
    unfold ResBlockDiscriminator.forwardBypass
    rw [e3, if_neg (by omega : ¬ (2 : ℕ) = 1), hb1, Option.some_bind, hb2]
  obtain ⟨u, hu, hun, huc, huh, huw⟩ := addT4_shape o3 ob2
    (by simp [hn3, hn2, hn1, hnb2, hnb1])
    (by simp [hc3, hc2, hcb2, hcb1])
    (by simp [hh3, hh2, hh1, hhb2, hhb1])
    (by simp [hw3, hw2x, hw1, hwb2, hwb1])
  refine ⟨u, ?_, ?_, ?_, ?_, ?_⟩
  · unfold ResBlockDiscriminator.forward
    rw [hmEq, Option.some_bind, hbEq, Option.some_bind, hu]
  · simp [hun, hn3, hn2, hn1]
  · simp [huc, hc3, hc2]
  · simp [huh, hh3, hh2, hh1]
  · simp [huw, hw3, hw2x, hw1]

/-- Discriminator residual block with stride 1: the forward pass succeeds and
preserves the spatial resolution. -/
theorem ResBlockDiscriminator.forward_shape1 (rb : ResBlockDiscriminator) {ci co : ℕ}
    (hwf : rb.wf ci co 1) (x : Tensor4)
    (hc : x.c = ci) (h1x : 1 ≤ x.h) (w1x : 1 ≤ x.w) :
    ∃ u, rb.forward x = some u ∧
      u.n = x.n ∧ u.c = co ∧ u.h = x.h ∧ u.w = x.w := by
  obtain ⟨e1, e2, e3, hcv1, hcv2, hbp⟩ := hwf
  obtain ⟨o1, h1, hn1, hc1, hh1, hw1⟩ := conv3_shape (snConv rb.conv1 rb.sigma1)
    (snConv_hasShape _ hcv1) (reluT x) (by simpa using hc) (by simp; omega) (by simp; omega)
  obtain ⟨o2, h2x, hn2, hc2, hh2, hw2x⟩ := conv3_shape (snConv rb.conv2 rb.sigma2)
    (snConv_hasShape _ hcv2) (reluT o1) (by simpa using hc1)
    (by simp [hh1]; omega) (by simp [hw1]; omega)
  have hmEq : rb.forwardMain x = some o2 := by
    unfold ResBlockDiscriminator.forwardMain
    rw [e3, if_pos rfl, h1, Option.some_bind, h2x]
  obtain ⟨ob1, hb1, hnb1, hcb1, hhb1, hwb1⟩ := conv1_shape (snConv rb.bypass_conv rb.sigmaB)
    (snConv_hasShape _ hbp) x hc (by omega) (by omega)
  have hbEq : rb.forwardBypass x = some ob1 := by
    unfold ResBlockDiscriminator.forwardBypass
    rw [e3, if_pos rfl, hb1]
  obtain ⟨u, hu, hun, huc, huh, huw⟩ := addT4_shape o2 ob1
    (by simp [hn2, hn1, hnb1])
    (by simp [hc2, hcb1])
    (by simp [hh2, hh1, hhb1])
    (by simp [hw2x, hw1, hwb1])
  refine ⟨u, ?_, ?_, ?_, ?_, ?_⟩
  · unfold ResBlockDiscriminator.forward
    rw [hmEq, Option.some_bind, hbEq, Option.some_bind, hu]
  · simp [hun, hn2, hn1]
  · simp [huc, hc2]
  · simp [huh, hh2, hh1]
  · simp [huw, hw2x, hw1]

/-- First discriminator block: the forward pass succeeds and floor-halves
both spatial dimensions. -/
theorem FirstResBlockDiscriminator.forward_shape (fb : FirstResBlockDiscriminator)
    {ci co : ℕ} (hwf : fb.wf ci co) (x : Tensor4)
    (hc : x.c = ci) (h2 : 2 ≤ x.h) (w2 : 2 ≤ x.w) :
    ∃ u, fb.forward x = some u ∧
      u.n = x.n ∧ u.c = co ∧ u.h = x.h / 2 ∧ u.w = x.w / 2 := by
  obtain ⟨e1, e2, hcv1, hcv2, hbp⟩ := hwf
  obtain ⟨o1, h1, hn1, hc1, hh1, hw1⟩ := conv3_shape (snConv fb.conv1 fb.sigma1)
    (snConv_hasShape _ hcv1) x hc (by omega) (by omega)
  obtain ⟨o2, h2x, hn2, hc2, hh2, hw2x⟩ := conv3_shape (snConv fb.conv2 fb.sigma2)
    (snConv_hasShape _ hcv2) (reluT o1) (by simpa using hc1)
    (by simp [hh1]; omega) (by simp [hw1]; omega)
  obtain ⟨o3, h3, hn3, hc3, hh3, hw3⟩ := avg2_shape o2
    (by simp [hh2, hh1]; omega) (by simp [hw2x, hw1]; omega)
  have hmEq : fb.forwardMain x = some o3 := by
    unfold FirstResBlockDiscriminator.forwardMain
    rw [h1, Option.some_bind, h2x, Option.some_bind, h3]
  obtain ⟨ob1, hb1, hnb1, hcb1, hhb1, hwb1⟩ := avg2_shape x h2 w2
  obtain ⟨ob2, hb2, hnb2, hcb2, hhb2, hwb2⟩ := conv1_shape (snConv fb.bypass_conv fb.sigmaB)
    (snConv_hasShape _ hbp) ob1 (by rw [hcb1]; exact hc) (by omega) (by omega)
  have hbEq : fb.forwardBypass x = some ob2 := by
    unfold FirstResBlockDiscriminator.forwardBypass
    rw [hb1, Option.some_bind, hb2]
  obtain ⟨u, hu, hun, huc, huh, huw⟩ := addT4_shape o3 ob2
    (by simp [hn3, hn2, hn1, hnb2, hnb1])
    (by simp [hc3, hc2, hcb2])
    (by simp [hh3, hh2, hh1, hhb2, hhb1])
    (by simp [hw3, hw2x, hw1, hwb2, hwb1])
  refine ⟨u, ?_, ?_, ?_, ?_, ?_⟩
  · unfold FirstResBlockDiscriminator.forward
    rw [hmEq, Option.some_bind, hbEq, Option.some_bind, hu]
  · simp [hun, hn3, hn2, hn1]
  · simp [huc, hc3, hc2]
  · simp [huh, hh3, hh2, hh1]
  · simp [huw, hw3, hw2x, hw1]

/-- Discriminator feature stack: on a 3-channel input with both spatial sizes
at least 16, the five residual blocks succeed and produce
(n, disc_ch*16, h/16, w/16) features. -/
theorem SnganDiscriminator.features_shape (D : SnganDiscriminator) (hwf : D.wf)
    (x : Tensor4) (hc : x.c = 3) (hh16 : 16 ≤ x.h) (hw16 : 16 ≤ x.w) :
    ∃ u, D.features x = some u ∧
      u.n = x.n ∧ u.c = D.disc_ch * 16 ∧ u.h = x.h / 16 ∧ u.w = x.w / 16 := by
  obtain ⟨h1wf, h2wf, h3wf, h4wf, h5wf, _⟩ := hwf
  obtain ⟨o1, h1, hn1, hc1, hh1, hw1⟩ := D.b1.forward_shape h1wf x hc
    (by omega) (by omega)
  obtain ⟨o2, h2, hn2, hc2, hh2, hw2⟩ := D.b2.forward_shape2 h2wf o1 hc1
    (by omega) (by omega)
  obtain ⟨o3, h3, hn3, hc3, hh3, hw3⟩ := D.b3.forward_shape2 h3wf o2 hc2
    (by omega) (by omega)
  obtain ⟨o4, h4, hn4, hc4, hh4, hw4⟩ := D.b4.forward_shape2 h4wf o3 hc3
    (by omega) (by omega)
  obtain ⟨o5, h5, hn5, hc5, hh5, hw5⟩ := D.b5.forward_shape1 h5wf o4 hc4
    (by omega) (by omega)
  refine ⟨reluT o5, ?_, ?_, ?_, ?_, ?_⟩
  · unfold SnganDiscriminator.features
    rw [h1, Option.some_bind, h2, Option.some_bind, h3, Option.some_bind,
      h4, Option.some_bind, h5, Option.map_some']
  · simp [hn5, hn4, hn3, hn2, hn1]
  · simp [hc5]
  · simp
    omega
  · simp
    omega

/-- Discriminator forward pass, general spatial sizes: when the floor-divided
spatial product (h/16)*(w/16) equals 16 the flattening reshape preserves the
batch dimension and the forward pass returns an (n, 1) score tensor. -/
theorem SnganDiscriminator.forward_shape_general (D : SnganDiscriminator) (hwf : D.wf)
    (x : Tensor4) (h : Tensor2) (hdc : 1 ≤ D.disc_ch)
    (hc : x.c = 3) (hh16 : 16 ≤ x.h) (hw16 : 16 ≤ x.w)
    (hprod : x.h / 16 * (x.w / 16) = 16)
    (hhn : h.n = x.n) (hhd : h.d = D.dim_embed) :
    ∃ u, D.forward x h = some u ∧ u.n = x.n ∧ u.d = 1 := by
  obtain ⟨h1wf, h2wf, h3wf, h4wf, h5wf, hl1i, hl1o, hl1b, hl2i, hl2o, hl2b⟩ := hwf
  obtain ⟨f, hf, hfn, hfc, hfh, hfw⟩ := D.features_shape
    ⟨h1wf, h2wf, h3wf, h4wf, h5wf, hl1i, hl1o, hl1b, hl2i, hl2o, hl2b⟩ x hc hh16 hw16
  obtain ⟨flat, hflat, hflatn, hflatd⟩ := view2of4_shape f (D.disc_ch * 16 * 4 * 4)
    (by rw [hfc, hfh, hfw, Nat.mul_assoc (D.disc_ch * 16), hprod]; ring)
    (by omega)
  obtain ⟨l2, hl2, hl2n, hl2d⟩ := linear_shape (snLinear D.linear2 D.sigmaL2) h
    (by simpa [hl2i] using hhd)
  obtain ⟨prod, hprodEq, hprodn, hprodd⟩ := mulT2_shape flat l2
    (by rw [hflatn, hfn, hl2n, hhn]) (by simp [hflatd, hl2d, hl2o])
  obtain ⟨s1, hs1, hs1n, hs1d⟩ := linear_shape (snLinear D.linear1 D.sigmaL1) flat
    (by simpa [hl1i] using hflatd)
  obtain ⟨s, hs, hsn, hsd⟩ := addT2_shape s1 (rowSum prod)
    (by simp [hs1n, hflatn, hprodn]) (by simp [hs1d, hl1o])
  obtain ⟨u, hu, hun, hud⟩ := view2of2_shape s (by rw [hsd]; simp [hs1d, hl1o])
  refine ⟨u, ?_, ?_, hud⟩
  · unfold SnganDiscriminator.forward
    rw [hf, Option.some_bind, hflat, Option.some_bind, hl2, Option.some_bind,
      hprodEq, Option.some_bind, hs1, Option.some_bind, hs, Option.some_bind, hu]
  · rw [hun, hsn, hs1n, hflatn, hfn]

/-- Real.tanh is strictly below 1. -/
theorem tanh_lt_one (x : ℝ) : Real.tanh x < 1 := by
  rw [Real.tanh_eq_sinh_div_cosh]
  exact (div_lt_one (Real.cosh_pos x)).mpr (Real.sinh_lt_cosh x)

/-- Real.tanh is strictly above -1. -/
theorem neg_one_lt_tanh (x : ℝ) : -1 < Real.tanh x := by
  have h := tanh_lt_one (-x)
  rw [Real.tanh_neg] at h
  linarith

@[simp] theorem tanhT_n (x : Tensor4) : (tanhT x).n = x.n := rfl
@[simp] theorem tanhT_c (x : Tensor4) : (tanhT x).c = x.c := rfl
@[simp] theorem tanhT_h (x : Tensor4) : (tanhT x).h = x.h := rfl
@[simp] theorem tanhT_w (x : Tensor4) : (tanhT x).w = x.w := rfl

/-- Every entry of a tanh layer output lies in [-1, 1]. -/
theorem tanhT_bounds (x : Tensor4) (n c i j : ℕ) :
    -1 ≤ (tanhT x).data n c i j ∧ (tanhT x).data n c i j ≤ 1 :=
  ⟨(neg_one_lt_tanh _).le, (tanh_lt_one _).le⟩

/-- ResBlockGenerator.forward with an embedding takes the conditional path. -/
theorem ResBlockGenerator.forward_some (rb : ResBlockGenerator) (x : Tensor4)
    (hh : Tensor2) : rb.forward x (some hh) = rb.forwardCond x hh := rfl

/-- ResBlockGenerator.forward without an embedding takes the unconditional path. -/
theorem ResBlockGenerator.forward_none (rb : ResBlockGenerator) (x : Tensor4) :
    rb.forward x none = rb.forwardUncond x := rfl

/-- Generator forward pass with an embedding: on a well-formed generator with
positive base width, a latent batch of width nz and a matching embedding batch
produce an output with batch preserved, 3 channels, 64x64 resolution, and
every entry in [-1, 1]. -/
theorem SnganGenerator.forwardSome_shape (G : SnganGenerator) (hwf : G.wf)
    (hgc : 1 ≤ G.gen_ch) (z : Tensor2) (hh : Tensor2)
    (hz : z.d = G.nz) (hhn : hh.n = z.n) (hhd : hh.d = G.dim_embed) :
    ∃ u, G.forward z (some hh) = some u ∧
      u.n = z.n ∧ u.c = 3 ∧ u.h = 64 ∧ u.w = 64 ∧
      ∀ n c i j, -1 ≤ u.data n c i j ∧ u.data n c i j ≤ 1 := by
  obtain ⟨hdi, hdo, hdb, hb0, hb1, hb2, hb3, hfn, hfa, hfc⟩ := hwf
  obtain ⟨d0, hd0, hd0n, hd0d⟩ := linear_shape G.dense z (by rw [hz, hdi])
  obtain ⟨o0, ho0, ho0n, ho0c, ho0h, ho0w⟩ := view4_shape d0 (G.gen_ch * 16) 4 4
    (by rw [hd0d, hdo]; ring) (by omega)
  obtain ⟨o1, ho1, ho1n, ho1c, ho1h, ho1w⟩ := G.genblock0.forwardCond_shape hb0 o0 hh
    ho0c (by omega) (by omega) (by rw [ho0n, hd0n]; exact hhn) hhd
    (by omega) (by omega)
  obtain ⟨o2, ho2, ho2n, ho2c, ho2h, ho2w⟩ := G.genblock1.forwardCond_shape hb1 o1 hh
    ho1c (by omega) (by omega) (by rw [ho1n, ho0n, hd0n]; exact hhn) hhd
    (by omega) (by omega)
  obtain ⟨o3, ho3, ho3n, ho3c, ho3h, ho3w⟩ := G.genblock2.forwardCond_shape hb2 o2 hh
    ho2c (by omega) (by omega) (by rw [ho2n, ho1n, ho0n, hd0n]; exact hhn) hhd
    (by omega) (by omega)
  obtain ⟨o4, ho4, ho4n, ho4c, ho4h, ho4w⟩ := G.genblock3.forwardCond_shape hb3 o3 hh
    ho3c (by omega) (by omega) (by rw [ho3n, ho2n, ho1n, ho0n, hd0n]; exact hhn) hhd
    (by omega) (by omega)
  obtain ⟨o5, ho5, ho5n, ho5c, ho5h, ho5w⟩ := bn_shape G.final_bn o4 (by rw [ho4c, hfn])
  obtain ⟨o6, ho6, ho6n, ho6c, ho6h, ho6w⟩ := conv3_shape G.final_conv hfc (reluT o5)
    (by simp [ho5c, ho4c]) (by simp [ho5h]; omega) (by simp [ho5w]; omega)
  refine ⟨tanhT o6, ?_, ?_, ?_, ?_, ?_, fun n c i j => tanhT_bounds o6 n c i j⟩
  · unfold SnganGenerator.forward
    rw [hd0, Option.some_bind, ho0, Option.some_bind,
      ResBlockGenerator.forward_some, ho1, Option.some_bind,
      ResBlockGenerator.forward_some, ho2, Option.some_bind,
      ResBlockGenerator.forward_some, ho3, Option.some_bind,
      ResBlockGenerator.forward_some, ho4, Option.some_bind,
      ho5, Option.some_bind, ho6, Option.map_some']
  · simp [ho6n, ho5n, ho4n, ho3n, ho2n, ho1n, ho0n, hd0n]
  · simp [ho6c]
  · simp [ho6h, ho5h]
    omega
  · simp [ho6w, ho5w]
    omega

/-- Generator forward pass without an embedding: on a well-formed generator
with positive base width the unconditional path still produces a
batch-preserving 3-channel 64x64 output with entries in [-1, 1]. -/
theorem SnganGenerator.forwardNone_shape (G : SnganGenerator) (hwf : G.wf)
    (hgc : 1 ≤ G.gen_ch) (z : Tensor2) (hz : z.d = G.nz) :
    ∃ u, G.forward z none = some u ∧
      u.n = z.n ∧ u.c = 3 ∧ u.h = 64 ∧ u.w = 64 ∧
      ∀ n c i j, -1 ≤ u.data n c i j ∧ u.data n c i j ≤ 1 := by
  obtain ⟨hdi, hdo, hdb, hb0, hb1, hb2, hb3, hfn, hfa, hfc⟩ := hwf
  obtain ⟨d0, hd0, hd0n, hd0d⟩ := linear_shape G.dense z (by rw [hz, hdi])
  obtain ⟨o0, ho0, ho0n, ho0c, ho0h, ho0w⟩ := view4_shape d0 (G.gen_ch * 16) 4 4
    (by rw [hd0d, hdo]; ring) (by omega)
  obtain ⟨o1, ho1, ho1n, ho1c, ho1h, ho1w⟩ := G.genblock0.forwardUncond_shape hb0 o0
    ho0c (by omega) (by omega)
  obtain ⟨o2, ho2, ho2n, ho2c, ho2h, ho2w⟩ := G.genblock1.forwardUncond_shape hb1 o1
    ho1c (by omega) (by omega)
  obtain ⟨o3, ho3, ho3n, ho3c, ho3h, ho3w⟩ := G.genblock2.forwardUncond_shape hb2 o2
    ho2c (by omega) (by omega)
  obtain ⟨o4, ho4, ho4n, ho4c, ho4h, ho4w⟩ := G.genblock3.forwardUncond_shape hb3 o3
    ho3c (by omega) (by omega)
  obtain ⟨o5, ho5, ho5n, ho5c, ho5h, ho5w⟩ := bn_shape G.final_bn o4 (by rw [ho4c, hfn])
  obtain ⟨o6, ho6, ho6n, ho6c, ho6h, ho6w⟩ := conv3_shape G.final_conv hfc (reluT o5)
    (by simp [ho5c, ho4c]) (by simp [ho5h]; omega) (by simp [ho5w]; omega)
  refine ⟨tanhT o6, ?_, ?_, ?_, ?_, ?_, fun n c i j => tanhT_bounds o6 n c i j⟩
  · unfold SnganGenerator.forward
    rw [hd0, Option.some_bind, ho0, Option.some_bind,
      ResBlockGenerator.forward_none, ho1, Option.some_bind,
      ResBlockGenerator.forward_none, ho2, Option.some_bind,
      ResBlockGenerator.forward_none, ho3, Option.some_bind,
      ResBlockGenerator.forward_none, ho4, Option.some_bind,
      ho5, Option.some_bind, ho6, Option.map_some']
  · simp [ho6n, ho5n, ho4n, ho3n, ho2n, ho1n, ho0n, hd0n]
  · simp [ho6c]
  · simp [ho6h, ho5h]
    omega
  · simp [ho6w, ho5w]
    omega

/-- Equation form of a successful linear layer (bias included). -/
theorem linear_eq (m : Linear) (x : Tensor2) (hd : x.d = m.inF) :
    m.forward x = some ⟨x.n, m.outF, fun n o =>
      (∑ i ∈ Finset.range m.inF, m.weight o i * x.data n i)
      + (if m.useBias then m.bias o else 0)⟩ := by
  unfold Linear.forward
  rw [if_pos hd]
  rfl

/-- Equation form of a successful rank-2 elementwise product. -/
theorem mulT2_eq (a b : Tensor2) (hn : a.n = b.n) (hd : a.d = b.d) :
    mulT2 a b = some ⟨a.n, a.d, fun n j => a.data n j * b.data n j⟩ := by
  unfold mulT2
  rw [if_pos ⟨hn, hd⟩]

/-- Equation form of a successful rank-2 elementwise sum. -/
theorem addT2_eq (a b : Tensor2) (hn : a.n = b.n) (hd : a.d = b.d) :
    addT2 a b = some ⟨a.n, a.d, fun n j => a.data n j + b.data n j⟩ := by
  unfold addT2
  rw [if_pos ⟨hn, hd⟩]

/-- Equation form of view(-1, 1) on a single-feature rank-2 tensor. -/
theorem view2of2_eq (t : Tensor2) (hd : t.d = 1) :
    view2of2 t 1 = some ⟨t.n, 1, fun n j => t.data (n + j) 0⟩ := by
  unfold view2of2
  rw [if_pos (one_dvd _)]
  refine congrArg some (Tensor2.ext2 ?_ rfl ?_)
  · rw [Nat.div_one, hd, Nat.mul_one]
  · funext n j
    rw [hd]
    simp [Nat.mod_one]

/-- Equation form of a successful view(-1, d) on a rank-4 tensor. -/
theorem view2of4_eq (t : Tensor4) (d : ℕ) (hd : t.c * t.h * t.w = d) (hpos : 1 ≤ d) :
    view2of4 t d = some ⟨t.n, d,
      fun n j => t.data ((n * d + j) / (t.c * t.h * t.w)) ((n * d + j) / (t.h * t.w) % t.c)
        ((n * d + j) / t.w % t.h) ((n * d + j) % t.w)⟩ := by
  have hmul : t.n * t.c * t.h * t.w = t.n * d := by rw [← hd]; ring
  have hdvd : d ∣ t.n * t.c * t.h * t.w := hmul ▸ dvd_mul_left d t.n
  unfold view2of4
  rw [if_pos hdvd]
  refine congrArg some (Tensor2.ext2 ?_ rfl rfl)
  show t.n * t.c * t.h * t.w / d = t.n
  rw [hmul, Nat.mul_div_assoc t.n dvd_rfl, Nat.div_self hpos, Nat.mul_one]

/-- The concrete zero generator satisfies the constructor constraints. -/
theorem G0_wf : G0.wf := by
  simp [G0, wGenBlock, wConv, wCBN, wBN, wLinear, SnganGenerator.wf,
    ResBlockGenerator.wf, ConditionalBatchNorm2d.wf, Conv2d.hasShape]

/-- The concrete zero discriminator satisfies the constructor constraints. -/
theorem D0_wf : D0.wf := by
  simp [D0, wDiscBlock, wFirstBlock, FirstResBlockDiscriminator.make,
    SnganDiscriminator.wf, ResBlockDiscriminator.wf,
    FirstResBlockDiscriminator.wf, wConv, wLinear, Conv2d.hasShape]

/-- The concrete zero conditional batch normalization is well formed. -/
theorem wCBN0_wf : (wCBN 1 1).wf 1 1 := by
  simp [wCBN, wBN, wLinear, ConditionalBatchNorm2d.wf]

/-- C1: for every batch size N, the generator forward pass on a latent batch
of shape (N, latent_dim) and a label-embedding batch of shape (N, embed_dim)
returns an image tensor of shape (N, 3, 64, 64) in which every value lies in
[-1, 1] (the final stage is batch-norm, ReLU, 3x3 convolution, tanh). -/
theorem C1_generator_forward_contract (G : SnganGenerator) (hwf : G.wf)
    (hgc : 1 ≤ G.gen_ch) (z hh : Tensor2)
    (hz : z.d = G.nz) (hhn : hh.n = z.n) (hhd : hh.d = G.dim_embed) :
    ∃ u, G.forward z (some hh) = some u ∧
      u.n = z.n ∧ u.c = 3 ∧ u.h = 64 ∧ u.w = 64 ∧
      ∀ n c i j, -1 ≤ u.data n c i j ∧ u.data n c i j ≤ 1 :=
  G.forwardSome_shape hwf hgc z hh hz hhn hhd

/-- Witness for C1 at the zero generator with batch-1 inputs. -/
theorem C1_witness :
    G0.wf ∧ 1 ≤ G0.gen_ch ∧ z0.d = G0.nz ∧ h0.n = z0.n ∧ h0.d = G0.dim_embed ∧
    ∃ u, G0.forward z0 (some h0) = some u ∧
      u.n = z0.n ∧ u.c = 3 ∧ u.h = 64 ∧ u.w = 64 ∧
      ∀ n c i j, -1 ≤ u.data n c i j ∧ u.data n c i j ≤ 1 :=
  ⟨G0_wf, by decide, rfl, rfl, rfl,
    C1_generator_forward_contract G0 G0_wf (by decide) z0 h0 rfl rfl rfl⟩

/-- C2: for every batch size N, the discriminator forward pass on an image
batch of shape (N, 3, 64, 64) and an embedding batch of shape (N, embed_dim)
returns a score tensor of shape (N, 1). -/
theorem C2_discriminator_forward_contract (D : SnganDiscriminator) (hwf : D.wf)
    (hdc : 1 ≤ D.disc_ch) (x : Tensor4) (h : Tensor2)
    (hc : x.c = 3) (hx : x.h = 64) (hw : x.w = 64)
    (hhn : h.n = x.n) (hhd : h.d = D.dim_embed) :
    ∃ u, D.forward x h = some u ∧ u.n = x.n ∧ u.d = 1 :=
  D.forward_shape_general hwf x h hdc hc (by omega) (by omega)
    (by rw [hx, hw]) hhn hhd

/-- Witness for C2 at the zero discriminator with a batch-1 64x64 input. -/
theorem C2_witness :
    D0.wf ∧ 1 ≤ D0.disc_ch ∧ x64.c = 3 ∧ x64.h = 64 ∧ x64.w = 64 ∧
    h0.n = x64.n ∧ h0.d = D0.dim_embed ∧
    ∃ u, D0.forward x64 h0 = some u ∧ u.n = x64.n ∧ u.d = 1 :=
  ⟨D0_wf, by decide, rfl, rfl, rfl, rfl, rfl,
    C2_discriminator_forward_contract D0 D0_wf (by decide) x64 h0 rfl rfl rfl rfl rfl⟩

/-- C3: the conditional normalization layer first batch-normalizes the input
with no learned affine, computes gamma and beta from the embedding through
two independent bias-free linear projections broadcast per channel, and
returns exactly normalized + normalized*gamma + beta (the additive-residual
form). -/
theorem C3_conditional_batchnorm_formula (m : ConditionalBatchNorm2d) {C de : ℕ}
    (hwf : m.wf C de) (x : Tensor4) (y : Tensor2)
    (hc : x.c = C) (hyn : y.n = x.n) (hyd : y.d = de) (hC : 1 ≤ C) :
    ∃ dd, m.forward x y = some ⟨x.n, x.c, x.h, x.w, dd⟩ ∧
      ∀ n c i j, c < C → dd n c i j =
        normalize x n c i j
          + normalize x n c i j *
              (∑ k ∈ Finset.range de, m.embed_gamma.weight c k * y.data n k)
          + ∑ k ∈ Finset.range de, m.embed_beta.weight c k * y.data n k :=
  m.forward_ex hwf x y hc hyn hyd hC

/-- Witness for C3 at the zero conditional batch-norm layer on a batch-1
1-channel 2x2 feature map. -/
theorem C3_witness :
    (wCBN 1 1).wf 1 1 ∧ x22.c = 1 ∧ h0.n = x22.n ∧ h0.d = 1 ∧ 1 ≤ 1 ∧
    ∃ dd, (wCBN 1 1).forward x22 h0 = some ⟨x22.n, x22.c, x22.h, x22.w, dd⟩ ∧
      ∀ n c i j, c < 1 → dd n c i j =
        normalize x22 n c i j
          + normalize x22 n c i j *
              (∑ k ∈ Finset.range 1, (wCBN 1 1).embed_gamma.weight c k * h0.data n k)
          + ∑ k ∈ Finset.range 1, (wCBN 1 1).embed_beta.weight c k * h0.data n k :=
  ⟨wCBN0_wf, rfl, rfl, rfl, le_refl 1,
    C3_conditional_batchnorm_formula (wCBN 1 1) wCBN0_wf x22 h0 rfl rfl rfl (le_refl 1)⟩

/-- C4: with the embedding argument set to none every generator residual block
takes the unconditional path (plain batch-norm, activate, upsample, convolve,
norm, activate, convolve, plus the same bypass), and the generator still
returns a valid (N, 3, 64, 64) output for every batch size N. -/
theorem C4_unconditional_path (G : SnganGenerator) (hwf : G.wf)
    (hgc : 1 ≤ G.gen_ch) (z : Tensor2) (hz : z.d = G.nz) :
    (∀ (rb : ResBlockGenerator) (x : Tensor4), rb.forward x none =
      ((rb.bn1.forward x).bind fun o1 =>
       (rb.conv1.forward (upsample2 (reluT o1))).bind fun o2 =>
       (rb.bn2.forward o2).bind fun o3 =>
       (rb.conv2.forward (reluT o3)).bind fun o4 =>
       (rb.bypass_conv.forward (upsample2 x)).bind fun byp =>
       addT4 o4 byp)) ∧
    ∃ u, G.forward z none = some u ∧
      u.n = z.n ∧ u.c = 3 ∧ u.h = 64 ∧ u.w = 64 := by
  refine ⟨fun rb x => rfl, ?_⟩
  obtain ⟨u, he, hn, hc, hh, hw, _⟩ := G.forwardNone_shape hwf hgc z hz
  exact ⟨u, he, hn, hc, hh, hw⟩

/-- Witness for C4 at the zero generator with a batch-1 latent input. -/
theorem C4_witness :
    G0.wf ∧ 1 ≤ G0.gen_ch ∧ z0.d = G0.nz ∧
    ((∀ (rb : ResBlockGenerator) (x : Tensor4), rb.forward x none =
      ((rb.bn1.forward x).bind fun o1 =>
       (rb.conv1.forward (upsample2 (reluT o1))).bind fun o2 =>
       (rb.bn2.forward o2).bind fun o3 =>
       (rb.conv2.forward (reluT o3)).bind fun o4 =>
       (rb.bypass_conv.forward (upsample2 x)).bind fun byp =>
       addT4 o4 byp)) ∧
    ∃ u, G0.forward z0 none = some u ∧
      u.n = z0.n ∧ u.c = 3 ∧ u.h = 64 ∧ u.w = 64) :=
  ⟨G0_wf, by decide, rfl, C4_unconditional_path G0 G0_wf (by decide) z0 rfl⟩

/-- The concrete zero first block is well formed for channels 3 and 1. -/
theorem wFB0_wf : (wFirstBlock 3 1).wf 3 1 := by
  simp [wFirstBlock, FirstResBlockDiscriminator.make,
    FirstResBlockDiscriminator.wf, Conv2d.hasShape]

/-- C5: the first discriminator residual block feeds the raw input directly to
its first convolution (no leading activation), always downsamples by 2 on both
paths, and places the 2x2 average pool after the two convolutions on the main
path but before the 1x1 convolution on the bypass path. -/
theorem C5_first_block_structure (fb : FirstResBlockDiscriminator) {ci co : ℕ}
    (hwf : fb.wf ci co) (x : Tensor4) (hc : x.c = ci) (h2 : 2 ≤ x.h) (w2 : 2 ≤ x.w) :
    (fb.forwardMain x = (((snConv fb.conv1 fb.sigma1).forward x).bind fun o1 =>
      ((snConv fb.conv2 fb.sigma2).forward (reluT o1)).bind fun o2 =>
      avgPool2 2 o2)) ∧
    (fb.forwardBypass x =
      ((avgPool2 2 x).bind fun p => (snConv fb.bypass_conv fb.sigmaB).forward p)) ∧
    (∃ um, fb.forwardMain x = some um ∧
      um.n = x.n ∧ um.c = co ∧ um.h = x.h / 2 ∧ um.w = x.w / 2) ∧
    (∃ ub, fb.forwardBypass x = some ub ∧
      ub.n = x.n ∧ ub.c = co ∧ ub.h = x.h / 2 ∧ ub.w = x.w / 2) ∧
    (∃ u, fb.forward x = some u ∧
      u.n = x.n ∧ u.c = co ∧ u.h = x.h / 2 ∧ u.w = x.w / 2) := by
  obtain ⟨e1, e2, hcv1, hcv2, hbp⟩ := hwf
  obtain ⟨o1, h1, hn1, hc1, hh1, hw1⟩ := conv3_shape (snConv fb.conv1 fb.sigma1)
    (snConv_hasShape _ hcv1) x hc (by omega) (by omega)
  obtain ⟨o2, h2x, hn2, hc2, hh2, hw2x⟩ := conv3_shape (snConv fb.conv2 fb.sigma2)
    (snConv_hasShape _ hcv2) (reluT o1) (by simpa using hc1)
    (by simp [hh1]; omega) (by simp [hw1]; omega)
  obtain ⟨o3, h3, hn3, hc3, hh3, hw3⟩ := avg2_shape o2
    (by simp [hh2, hh1]; omega) (by simp [hw2x, hw1]; omega)
  have hmEq : fb.forwardMain x = some o3 := by
    unfold FirstResBlockDiscriminator.forwardMain
    rw [h1, Option.some_bind, h2x, Option.some_bind, h3]
  obtain ⟨ob1, hb1, hnb1, hcb1, hhb1, hwb1⟩ := avg2_shape x h2 w2
  obtain ⟨ob2, hb2, hnb2, hcb2, hhb2, hwb2⟩ := conv1_shape (snConv fb.bypass_conv fb.sigmaB)
    (snConv_hasShape _ hbp) ob1 (by rw [hcb1]; exact hc) (by omega) (by omega)
  have hbEq : fb.forwardBypass x = some ob2 := by
    unfold FirstResBlockDiscriminator.forwardBypass
    rw [hb1, Option.some_bind, hb2]
  obtain ⟨u, hu, hun, huc, huh, huw⟩ := addT4_shape o3 ob2
    (by simp [hn3, hn2, hn1, hnb2, hnb1])
    (by simp [hc3, hc2, hcb2])
    (by simp [hh3, hh2, hh1, hhb2, hhb1])
    (by simp [hw3, hw2x, hw1, hwb2, hwb1])
  refine ⟨rfl, rfl,
    ⟨o3, hmEq, ?_, ?_, ?_, ?_⟩, ⟨ob2, hbEq, ?_, ?_, ?_, ?_⟩, ⟨u, ?_, ?_, ?_, ?_, ?_⟩⟩
  · simp [hn3, hn2, hn1]
  · simp [hc3, hc2]
  · simp [hh3, hh2, hh1]
  · simp [hw3, hw2x, hw1]
  · simp [hnb2, hnb1]
  · simp [hcb2]
  · simp [hhb2, hhb1]
  · simp [hwb2, hwb1]
  · unfold FirstResBlockDiscriminator.forward
    rw [hmEq, Option.some_bind, hbEq, Option.some_bind, hu]
  · simp [hun, hn3, hn2, hn1]
  · simp [huc, hc3, hc2]
  · simp [huh, hh3, hh2, hh1]
  · simp [huw, hw3, hw2x, hw1]

/-- Witness for C5 at the zero first block on a batch-1 3-channel 64x64 input. -/
theorem C5_witness :
    (wFirstBlock 3 1).wf 3 1 ∧ x64.c = 3 ∧ 2 ≤ x64.h ∧ 2 ≤ x64.w ∧
    (((wFirstBlock 3 1).forwardMain x64 =
      (((snConv (wFirstBlock 3 1).conv1 (wFirstBlock 3 1).sigma1).forward x64).bind fun o1 =>
      ((snConv (wFirstBlock 3 1).conv2 (wFirstBlock 3 1).sigma2).forward (reluT o1)).bind fun o2 =>
      avgPool2 2 o2)) ∧
    ((wFirstBlock 3 1).forwardBypass x64 =
      ((avgPool2 2 x64).bind fun p =>
        (snConv (wFirstBlock 3 1).bypass_conv (wFirstBlock 3 1).sigmaB).forward p)) ∧
    (∃ um, (wFirstBlock 3 1).forwardMain x64 = some um ∧
      um.n = x64.n ∧ um.c = 1 ∧ um.h = x64.h / 2 ∧ um.w = x64.w / 2) ∧
    (∃ ub, (wFirstBlock 3 1).forwardBypass x64 = some ub ∧
      ub.n = x64.n ∧ ub.c = 1 ∧ ub.h = x64.h / 2 ∧ ub.w = x64.w / 2) ∧
    (∃ u, (wFirstBlock 3 1).forward x64 = some u ∧
      u.n = x64.n ∧ u.c = 1 ∧ u.h = x64.h / 2 ∧ u.w = x64.w / 2)) :=
  ⟨wFB0_wf, rfl, by decide, by decide,
   C5_first_block_structure (wFirstBlock 3 1) wFB0_wf x64 rfl (by decide) (by decide)⟩

/-- C6: the discriminator's final score adds, per sample, a spectral-normalized
linear functional of the flattened 4x4 features (with bias) and a projection
term: the embedding is mapped by the bias-free spectral-normalized linear2 to
the flattened dimensionality, multiplied elementwise with the features, and
summed over the feature axis. -/
theorem C6_projection_score (D : SnganDiscriminator) (hwf : D.wf) (hdc : 1 ≤ D.disc_ch)
    (x : Tensor4) (h : Tensor2) (hc : x.c = 3) (hx : x.h = 64) (hwx : x.w = 64)
    (hhn : h.n = x.n) (hhd : h.d = D.dim_embed) :
    ∃ f flat u, D.features x = some f ∧
      view2of4 f (D.disc_ch * 16 * 4 * 4) = some flat ∧
      D.forward x h = some u ∧ u.n = x.n ∧ u.d = 1 ∧
      ∀ n, u.data n 0 =
        ((∑ i ∈ Finset.range (D.disc_ch * 16 * 4 * 4),
            D.linear1.weight 0 i / D.sigmaL1 * flat.data n i) + D.linear1.bias 0)
        + ∑ j ∈ Finset.range (D.disc_ch * 16 * 4 * 4),
            flat.data n j * ∑ i ∈ Finset.range D.dim_embed,
              D.linear2.weight j i / D.sigmaL2 * h.data n i := by
  obtain ⟨h1wf, h2wf, h3wf, h4wf, h5wf, hl1i, hl1o, hl1b, hl2i, hl2o, hl2b⟩ := hwf
  obtain ⟨f, hf, hfn, hfc, hfh, hfw⟩ := D.features_shape
    ⟨h1wf, h2wf, h3wf, h4wf, h5wf, hl1i, hl1o, hl1b, hl2i, hl2o, hl2b⟩ x hc
    (by omega) (by omega)
  have hprod4 : f.c * f.h * f.w = D.disc_ch * 16 * 4 * 4 := by
    rw [hfc, hfh, hfw, hx, hwx]
  obtain ⟨flatd, hflat⟩ := view2of4_ex f (D.disc_ch * 16 * 4 * 4) hprod4 (by omega)
  have hl2 := linear_eq_nobias (snLinear D.linear2 D.sigmaL2) h
    (hhd.trans hl2i.symm) hl2b
  refine ⟨f, ⟨f.n, D.disc_ch * 16 * 4 * 4, flatd⟩, ?_⟩
  unfold SnganDiscriminator.forward
  rw [hf, Option.some_bind, hflat, Option.some_bind, hl2, Option.some_bind,
    mulT2_eq _ _ (by dsimp only; rw [hfn, hhn]) (by exact hl2o.symm),
    Option.some_bind,
    linear_eq (snLinear D.linear1 D.sigmaL1) _ (by exact hl1i.symm),
    Option.some_bind,
    addT2_eq _ _ (by exact rfl) (by exact hl1o),
    Option.some_bind,
    view2of2_eq _ (by exact hl1o)]
  refine ⟨_, rfl, rfl, rfl, ?_, ?_, ?_⟩
  · dsimp only
    exact hfn
  · rfl
  · intro n
    dsimp only
    rw [show (snLinear D.linear1 D.sigmaL1).inF = D.disc_ch * 16 * 4 * 4 from hl1i,
      show (snLinear D.linear1 D.sigmaL1).useBias = true from hl1b,
      show (snLinear D.linear2 D.sigmaL2).inF = D.dim_embed from hl2i]
    simp [snLinear, rowSum]

/-- Witness for C6 at the zero discriminator on a batch-1 64x64 input. -/
theorem C6_witness :
    D0.wf ∧ 1 ≤ D0.disc_ch ∧ x64.c = 3 ∧ x64.h = 64 ∧ x64.w = 64 ∧
    h0.n = x64.n ∧ h0.d = D0.dim_embed ∧
    ∃ f flat u, D0.features x64 = some f ∧
      view2of4 f (D0.disc_ch * 16 * 4 * 4) = some flat ∧
      D0.forward x64 h0 = some u ∧ u.n = x64.n ∧ u.d = 1 ∧
      ∀ n, u.data n 0 =
        ((∑ i ∈ Finset.range (D0.disc_ch * 16 * 4 * 4),
            D0.linear1.weight 0 i / D0.sigmaL1 * flat.data n i) + D0.linear1.bias 0)
        + ∑ j ∈ Finset.range (D0.disc_ch * 16 * 4 * 4),
            flat.data n j * ∑ i ∈ Finset.range D0.dim_embed,
              D0.linear2.weight j i / D0.sigmaL2 * h0.data n i :=
  ⟨D0_wf, by decide, rfl, rfl, rfl, rfl, rfl,
    C6_projection_score D0 D0_wf (by decide) x64 h0 rfl rfl rfl rfl rfl⟩

/-- C7: every stride-2 discriminator residual block halves both spatial
dimensions (floor division), the stride-1 block preserves them, and across a
well-formed discriminator on a 64x64 input the resolution schedule is
64, 32, 16, 8, 4, 4. -/
theorem C7_resolution_schedule :
    (∀ (rb : ResBlockDiscriminator) (ci co : ℕ), rb.wf ci co 2 →
      ∀ x : Tensor4, x.c = ci → 2 ≤ x.h → 2 ≤ x.w →
        ∃ u, rb.forward x = some u ∧
          u.n = x.n ∧ u.c = co ∧ u.h = x.h / 2 ∧ u.w = x.w / 2) ∧
    (∀ (rb : ResBlockDiscriminator) (ci co : ℕ), rb.wf ci co 1 →
      ∀ x : Tensor4, x.c = ci → 1 ≤ x.h → 1 ≤ x.w →
        ∃ u, rb.forward x = some u ∧
          u.n = x.n ∧ u.c = co ∧ u.h = x.h ∧ u.w = x.w) ∧
    (∀ D : SnganDiscriminator, D.wf → ∀ x : Tensor4,
      x.c = 3 → x.h = 64 → x.w = 64 →
      ∃ o1 o2 o3 o4 o5,
        D.b1.forward x = some o1 ∧ o1.h = 32 ∧ o1.w = 32 ∧
        D.b2.forward o1 = some o2 ∧ o2.h = 16 ∧ o2.w = 16 ∧
        D.b3.forward o2 = some o3 ∧ o3.h = 8 ∧ o3.w = 8 ∧
        D.b4.forward o3 = some o4 ∧ o4.h = 4 ∧ o4.w = 4 ∧
        D.b5.forward o4 = some o5 ∧ o5.h = 4 ∧ o5.w = 4) := by
  refine ⟨?_, ?_, ?_⟩
  · intro rb ci co hwf x hc h2 w2
    exact rb.forward_shape2 hwf x hc h2 w2
  · intro rb ci co hwf x hc h1 w1
    exact rb.forward_shape1 hwf x hc h1 w1
  · intro D hwfD x hc hx hw
    obtain ⟨h1wf, h2wf, h3wf, h4wf, h5wf, _⟩ := hwfD
    obtain ⟨o1, e1, n1, c1, hh1, ww1⟩ := D.b1.forward_shape h1wf x hc
      (by omega) (by omega)
    obtain ⟨o2, e2, n2, c2, hh2, ww2⟩ := D.b2.forward_shape2 h2wf o1 c1
      (by omega) (by omega)
    obtain ⟨o3, e3, n3, c3, hh3, ww3⟩ := D.b3.forward_shape2 h3wf o2 c2
      (by omega) (by omega)
    obtain ⟨o4, e4, n4, c4, hh4, ww4⟩ := D.b4.forward_shape2 h4wf o3 c3
      (by omega) (by omega)
    obtain ⟨o5, e5, n5, c5, hh5, ww5⟩ := D.b5.forward_shape1 h5wf o4 c4
      (by omega) (by omega)
    exact ⟨o1, o2, o3, o4, o5, e1, by omega, by omega, e2, by omega, by omega,
      e3, by omega, by omega, e4, by omega, by omega, e5, by omega, by omega⟩

/-- The concrete zero stride-2 block with channels 1 to 2 is well formed. -/
theorem wDB122_wf : (wDiscBlock 1 2 2).wf 1 2 2 := by
  simp [wDiscBlock, wConv, ResBlockDiscriminator.wf, Conv2d.hasShape]

/-- The concrete zero stride-1 block with channels 8 to 16 is well formed. -/
theorem wDB8161_wf : (wDiscBlock 8 16 1).wf 8 16 1 := by
  simp [wDiscBlock, wConv, ResBlockDiscriminator.wf, Conv2d.hasShape]

/-- Witness for C7 at concrete zero blocks and the zero discriminator. -/
theorem C7_witness :
    ((wDiscBlock 1 2 2).wf 1 2 2 ∧ x22.c = 1 ∧ 2 ≤ x22.h ∧ 2 ≤ x22.w ∧
      ∃ u, (wDiscBlock 1 2 2).forward x22 = some u ∧
        u.n = x22.n ∧ u.c = 2 ∧ u.h = x22.h / 2 ∧ u.w = x22.w / 2) ∧
    ((wDiscBlock 8 16 1).wf 8 16 1 ∧ x8.c = 8 ∧ 1 ≤ x8.h ∧ 1 ≤ x8.w ∧
      ∃ u, (wDiscBlock 8 16 1).forward x8 = some u ∧
        u.n = x8.n ∧ u.c = 16 ∧ u.h = x8.h ∧ u.w = x8.w) ∧
    (D0.wf ∧ x64.c = 3 ∧ x64.h = 64 ∧ x64.w = 64 ∧
      ∃ o1 o2 o3 o4 o5,
        D0.b1.forward x64 = some o1 ∧ o1.h = 32 ∧ o1.w = 32 ∧
        D0.b2.forward o1 = some o2 ∧ o2.h = 16 ∧ o2.w = 16 ∧
        D0.b3.forward o2 = some o3 ∧ o3.h = 8 ∧ o3.w = 8 ∧
        D0.b4.forward o3 = some o4 ∧ o4.h = 4 ∧ o4.w = 4 ∧
        D0.b5.forward o4 = some o5 ∧ o5.h = 4 ∧ o5.w = 4) :=
  ⟨⟨wDB122_wf, rfl, by decide, by decide,
      C7_resolution_schedule.1 (wDiscBlock 1 2 2) 1 2 wDB122_wf x22 rfl
        (by decide) (by decide)⟩,
   ⟨wDB8161_wf, rfl, by decide, by decide,
      C7_resolution_schedule.2.1 (wDiscBlock 8 16 1) 8 16 wDB8161_wf x8 rfl
        (by decide) (by decide)⟩,
   ⟨D0_wf, rfl, rfl, rfl,
      C7_resolution_schedule.2.2 D0 D0_wf x64 rfl rfl rfl⟩⟩

/-- The block built by make satisfies the first-block shape constraints,
whatever stride argument is passed. -/
theorem FirstResBlockDiscriminator.make_wf (ci co s : ℕ)
    (w1 w2 wb : ℕ → ℕ → ℕ → ℕ → ℝ) (b1 b2 bb : ℕ → ℝ) (s1 s2 sb : ℝ) :
    (FirstResBlockDiscriminator.make ci co s w1 w2 wb b1 b2 bb s1 s2 sb).wf ci co :=
  ⟨rfl, rfl, ⟨rfl, rfl, rfl, rfl, rfl⟩, ⟨rfl, rfl, rfl, rfl, rfl⟩,
    ⟨rfl, rfl, rfl, rfl, rfl⟩⟩

/-- C8: the stride argument of FirstResBlockDiscriminator.__init__ has no
effect: any two stride values produce identical blocks (same layers, same
function), and the block always downsamples by exactly 2. -/
theorem C8_first_block_ignores_stride :
    (∀ (ci co s1 s2 : ℕ) (w1 w2 wb : ℕ → ℕ → ℕ → ℕ → ℝ) (b1 b2 bb : ℕ → ℝ)
        (sg1 sg2 sgb : ℝ),
      FirstResBlockDiscriminator.make ci co s1 w1 w2 wb b1 b2 bb sg1 sg2 sgb =
      FirstResBlockDiscriminator.make ci co s2 w1 w2 wb b1 b2 bb sg1 sg2 sgb) ∧
    (∀ (ci co s : ℕ) (w1 w2 wb : ℕ → ℕ → ℕ → ℕ → ℝ) (b1 b2 bb : ℕ → ℝ)
        (sg1 sg2 sgb : ℝ) (x : Tensor4), x.c = ci → 2 ≤ x.h → 2 ≤ x.w →
      ∃ u, (FirstResBlockDiscriminator.make ci co s w1 w2 wb b1 b2 bb
          sg1 sg2 sgb).forward x = some u ∧
        u.n = x.n ∧ u.c = co ∧ u.h = x.h / 2 ∧ u.w = x.w / 2) := by
  refine ⟨fun ci co s1 s2 w1 w2 wb b1 b2 bb sg1 sg2 sgb => rfl, ?_⟩
  intro ci co s w1 w2 wb b1 b2 bb sg1 sg2 sgb x hc h2 w2x
  exact (FirstResBlockDiscriminator.make ci co s w1 w2 wb b1 b2 bb
    sg1 sg2 sgb).forward_shape
    (FirstResBlockDiscriminator.make_wf ci co s w1 w2 wb b1 b2 bb sg1 sg2 sgb)
    x hc h2 w2x

/-- Witness for C8: strides 2 and 7 produce the same block, and the block
built with stride 7 still halves a 64x64 input. -/
theorem C8_witness :
    (FirstResBlockDiscriminator.make 3 1 2 zeroW4 zeroW4 zeroW4 zeroW1 zeroW1
        zeroW1 1 1 1 =
      FirstResBlockDiscriminator.make 3 1 7 zeroW4 zeroW4 zeroW4 zeroW1 zeroW1
        zeroW1 1 1 1) ∧
    (x64.c = 3 ∧ 2 ≤ x64.h ∧ 2 ≤ x64.w ∧
      ∃ u, (FirstResBlockDiscriminator.make 3 1 7 zeroW4 zeroW4 zeroW4 zeroW1
          zeroW1 zeroW1 1 1 1).forward x64 = some u ∧
        u.n = x64.n ∧ u.c = 1 ∧ u.h = x64.h / 2 ∧ u.w = x64.w / 2) :=
  ⟨C8_first_block_ignores_stride.1 3 1 2 7 zeroW4 zeroW4 zeroW4 zeroW1 zeroW1
      zeroW1 1 1 1,
   rfl, by decide, by decide,
   C8_first_block_ignores_stride.2 3 1 7 zeroW4 zeroW4 zeroW4 zeroW1 zeroW1
     zeroW1 1 1 1 x64 rfl (by decide) (by decide)⟩

/-- C9: the two paths of a generator residual block share the convolution
layers but use distinct normalization layers: the conditional path is fully
determined by the convolutions and the two conditional batch-norms, while the
unconditional path is fully determined by the same convolutions and the two
plain batch-norms. -/
theorem C9_shared_convolutions_distinct_norms (b b' : ResBlockGenerator)
    (hc1 : b.conv1 = b'.conv1) (hc2 : b.conv2 = b'.conv2)
    (hbp : b.bypass_conv = b'.bypass_conv) :
    (∀ (x : Tensor4) (hh : Tensor2), b.condgn1 = b'.condgn1 →
      b.condgn2 = b'.condgn2 → b.forward x (some hh) = b'.forward x (some hh)) ∧
    (∀ x : Tensor4, b.bn1 = b'.bn1 → b.bn2 = b'.bn2 →
      b.forward x none = b'.forward x none) := by
  constructor
  · intro x hh hg1 hg2
    rw [ResBlockGenerator.forward_some, ResBlockGenerator.forward_some]
    unfold ResBlockGenerator.forwardCond
    rw [hc1, hc2, hbp, hg1, hg2]
  · intro x hb1 hb2
    rw [ResBlockGenerator.forward_none, ResBlockGenerator.forward_none]
    unfold ResBlockGenerator.forwardUncond
    rw [hc1, hc2, hbp, hb1, hb2]

/-- Witness for C9: two concrete blocks sharing convolutions but with
different plain batch-norms compute the same conditional-path output. -/
theorem C9_witness :
    (wGenBlock 1 1 1).conv1 = wGenBlockAlt.conv1 ∧
    (wGenBlock 1 1 1).conv2 = wGenBlockAlt.conv2 ∧
    (wGenBlock 1 1 1).bypass_conv = wGenBlockAlt.bypass_conv ∧
    (wGenBlock 1 1 1).forward x22 (some h0) = wGenBlockAlt.forward x22 (some h0) :=
  ⟨rfl, rfl, rfl,
    (C9_shared_convolutions_distinct_norms (wGenBlock 1 1 1) wGenBlockAlt
      rfl rfl rfl).1 x22 h0 rfl rfl⟩

/-- C10 counterexample: a 3-channel 65x65 input, which is not 64x64, still
flows through the discriminator and returns a tensor whose batch dimension
equals the input's, refuting the claim that this happens only for 64x64. -/
theorem C10_counterexample :
    x65.h = 65 ∧ x65.w = 65 ∧ ¬(x65.h = 64 ∧ x65.w = 64) ∧ x65.c = 3 ∧
    ∃ u, D0.forward x65 h0 = some u ∧ u.n = x65.n ∧ u.d = 1 :=
  ⟨rfl, rfl, by decide, rfl,
    D0.forward_shape_general D0_wf x65 h0 (by decide) rfl (by decide) (by decide)
      (by decide) rfl rfl⟩

/-- C10 (amended): the discriminator flattens with a reshape to
(-1, disc_ch*16*4*4), so with a 3-channel input whose pooled spatial product
(h/16)*(w/16) equals 16 — for example 64x64, but also 65x65 — the output batch
dimension equals the input batch dimension and the score tensor is (N, 1). -/
theorem C10_amended_batch_reshape (D : SnganDiscriminator) (hwf : D.wf)
    (hdc : 1 ≤ D.disc_ch) (x : Tensor4) (h : Tensor2)
    (hc : x.c = 3) (hh16 : 16 ≤ x.h) (hw16 : 16 ≤ x.w)
    (hprod : x.h / 16 * (x.w / 16) = 16)
    (hhn : h.n = x.n) (hhd : h.d = D.dim_embed) :
    ∃ u, D.forward x h = some u ∧ u.n = x.n ∧ u.d = 1 :=
  D.forward_shape_general hwf x h hdc hc hh16 hw16 hprod hhn hhd

/-- Witness for the amended C10 at the zero discriminator on a 65x65 input. -/
theorem C10_witness :
    D0.wf ∧ 1 ≤ D0.disc_ch ∧ x65.c = 3 ∧ 16 ≤ x65.h ∧ 16 ≤ x65.w ∧
    x65.h / 16 * (x65.w / 16) = 16 ∧ h0.n = x65.n ∧ h0.d = D0.dim_embed ∧
    ∃ u, D0.forward x65 h0 = some u ∧ u.n = x65.n ∧ u.d = 1 :=
  ⟨D0_wf, by decide, rfl, by decide, by decide, by decide, rfl, rfl,
    C10_amended_batch_reshape D0 D0_wf (by decide) x65 h0 rfl (by decide)
      (by decide) (by decide) rfl rfl⟩

end Sngan
